import Mathlib

/-!
# Proof-of-work retargeting and validation of GameCoin (`src/pow.cpp`)

A shallow embedding of the two functions of `src/pow.cpp`,
`GetNextWorkRequired` and `CheckProofOfWork`, and the properties of them
stated by the specification.

Conventions of the embedding.

* `int64_t` and `int` values are integers (`Int`); `/` and `%` of C++ truncate
  toward zero and are `Int.tdiv` and `Int.tmod`.  A division or remainder by
  zero and the quotient `INT64_MIN / -1` are undefined in C++ and trap in the
  compiled program; they are the failures `Failure.divisionByZero` and
  `Failure.divisionOverflow`.  A quotient whose value is never read has no
  effect on the result and is not evaluated (see `bracketEpoch`).
* An `int64_t` sum or product that leaves the range of the type (undefined in
  C++) keeps its low 64 bits in the compiled program; this is `wrap64`, applied
  where parameters can make it happen (lines 52, 93-94, 107-108).
* `arith_uint256` values are natural numbers below `2 ^ 256`, and every
  operation that can exceed the width is reduced modulo `2 ^ 256` explicitly.
* `assert(pindexFirst)` is the failure `Failure.assertionFailed`.
* `arith_uint256.h`, `chain.h` and `consensus/params.h` are not part of the
  sources at hand; what is taken from them is marked below.
-/

namespace GameCoin

/-! ## Definitions -/

/-- The ways a call can fail instead of returning. -/
inductive Failure where
  /-- An integer division or remainder with a zero divisor. -/
  | divisionByZero
  /-- The quotient `INT64_MIN / -1`, which does not fit an `int64_t`. -/
  | divisionOverflow
  /-- The statement `assert(pindexFirst)` on line 77 fired. -/
  | assertionFailed
  deriving DecidableEq

/-- Modelled from the spec: `Consensus::Params` (declared in
`consensus/params.h`, which is not among the sources).  Section 3 lists the
fields: `powLimit` a 256-bit magnitude, `targetTimespan` and `targetSpacing`
in seconds (`int64_t` in the code that reads them) and the two switches. -/
structure Params where
  powLimit : Nat
  nPowTargetTimespan : Int
  nPowTargetSpacing : Int
  fPowAllowMinDifficultyBlocks : Bool
  fPowNoRetargeting : Bool
  deriving DecidableEq

/-- Modelled from the spec: a `const CBlockIndex*` (`chain.h` is not among the
sources).  Section 3: a chain node has a non-negative height, a timestamp in
seconds, the compact target it was mined with and a reference to its
predecessor, which is "none" at the genesis node.  `null` is the `NULL`
pointer. -/
inductive BlockPtr where
  | null : BlockPtr
  | node (nHeight : Nat) (nTime : Nat) (nBits : Nat) (pprev : BlockPtr) : BlockPtr
  deriving DecidableEq

/-- The result of `arith_uint256::SetCompact`: the magnitude and the two
flags it reports through its pointer arguments. -/
structure Decoded where
  magnitude : Nat
  fNegative : Bool
  fOverflow : Bool
  deriving DecidableEq

/-- Modelled from the spec: the big-integer codec (`arith_uint256.h` is not
among the sources).  Section 6: `decodeCompact(u32) -> (magnitude: 256-bit
unsigned, isNegative, isOverflow)` and `encodeCompact(256-bit unsigned) ->
u32`.  The functions of `pow.cpp` are embedded over an arbitrary codec; the
only fact used about it is that a decoded magnitude fits 256 bits. -/
structure Codec where
  SetCompact : Nat → Decoded
  GetCompact : Nat → Nat
  magnitude_lt : ∀ nCompact, (SetCompact nCompact).magnitude < 2 ^ 256

/-- The value an `int64_t` sum or product takes when the mathematical result
`x` leaves the range of the type: the low 64 bits, read as a signed number. -/
def wrap64 (x : Int) : Int := (x + 2 ^ 63) % 2 ^ 64 - 2 ^ 63

/-- C++ `a / b` on `int64_t`. -/
def cdiv (a b : Int) : Except Failure Int :=
  if b = 0 then .error .divisionByZero
  else if a = -2 ^ 63 ∧ b = -1 then .error .divisionOverflow
  else .ok (Int.tdiv a b)

/-- C++ `a % b` on signed integers. -/
def cmod (a b : Int) : Except Failure Int :=
  if b = 0 then .error .divisionByZero else .ok (Int.tmod a b)

/-- Scan of `arith_uint256::bits()`: with `k` positions left to look at, the
position of the highest set bit plus one, or zero. -/
def bitsLoop : Nat → Nat → Nat
  | 0, _ => 0
  | k + 1, n => if 2 ^ k ≤ n then k + 1 else bitsLoop k n

/-- Modelled from the spec: `arith_uint256::bits()`, the bit-length of a
256-bit magnitude (section 4.1 step 8, "if its bit-length exceeds 235"). -/
def bits (n : Nat) : Nat := bitsLoop 256 n

/-- The values of `nTargetTimespan`, `nTargetSpacing`, `nInterval` and
`nReTargetHistoryFact` after lines 16-42. -/
structure Epoch where
  nTargetTimespan : Int
  nTargetSpacing : Int
  nInterval : Int
  nReTargetHistoryFact : Int
  deriving DecidableEq

/-- Lines 25-42: the height brackets, as a total function of the quotient
`nInterval0` of line 18.  `2.5 * 60` is the double `150.0`, stored in an
`int64_t` as `150`. -/
def selectEpoch (nHeight : Nat) (params : Params) (nInterval0 : Int) : Epoch :=
  if nHeight ≥ 25199 ∧ nHeight < 64007 then
    { nTargetTimespan := 2 * 60 * 60
      nTargetSpacing := 150
      nInterval := Int.tdiv (2 * 60 * 60) 150
      nReTargetHistoryFact := 12 }
  else if nHeight ≥ 64007 then
    { nTargetTimespan := 30 * 60
      nTargetSpacing := 150
      nInterval := Int.tdiv (30 * 60) 150
      nReTargetHistoryFact := if nHeight < 68999 then 48 else 4 }
  else
    { nTargetTimespan := params.nPowTargetTimespan
      nTargetSpacing := params.nPowTargetSpacing
      nInterval := nInterval0
      nReTargetHistoryFact := 12 }

/-- Lines 16-42 as the program runs them.  Line 18 takes the quotient of the
two parameters before the brackets are looked at, but its value is read only
when no bracket overwrites `nInterval`, that is for a tip below height 25199;
for a tip from 25199 on (and for a `NULL` tip, which returns on line 23) the
quotient is dead and the compiled program does not evaluate it.  The division
is therefore embedded where its value is used. -/
def bracketEpoch (nHeight : Nat) (params : Params) : Except Failure Epoch :=
  if nHeight ≥ 25199 ∧ nHeight < 64007 then
    .ok { nTargetTimespan := 2 * 60 * 60
          nTargetSpacing := 150
          nInterval := Int.tdiv (2 * 60 * 60) 150
          nReTargetHistoryFact := 12 }
  else if nHeight ≥ 64007 then
    .ok { nTargetTimespan := 30 * 60
          nTargetSpacing := 150
          nInterval := Int.tdiv (30 * 60) 150
          nReTargetHistoryFact := if nHeight < 68999 then 48 else 4 }
  else
    match cdiv params.nPowTargetTimespan params.nPowTargetSpacing with
    | .error e => .error e
    | .ok nInterval0 =>
      .ok { nTargetTimespan := params.nPowTargetTimespan
            nTargetSpacing := params.nPowTargetSpacing
            nInterval := nInterval0
            nReTargetHistoryFact := 12 }

/-- Lines 57-60: the walk back over the blocks mined under the
min-difficulty rule.  The loop tests `pindex->pprev` first, so it never
leaves the chain; the `null` case is not reached from a non-null tip. -/
def minDifficultyWalk (nInterval : Int) (nProofOfWorkLimit : Nat) : BlockPtr → Nat
  | .null => 0
  | .node _ _ nBits .null => nBits
  | .node nHeight _ nBits (.node h t b p) =>
    if Int.tmod (nHeight : Int) nInterval ≠ 0 ∧ nBits = nProofOfWorkLimit then
      minDifficultyWalk nInterval nProofOfWorkLimit (.node h t b p)
    else nBits

/-- Lines 68-72: the look-back distance `blockstogoback`. -/
def blocksToGoBack (nHeight : Nat) (ep : Epoch) : Int :=
  let b0 : Int := ep.nInterval - 1
  let b1 : Int := if (nHeight : Int) + 1 ≠ ep.nInterval then ep.nInterval else b0
  if (nHeight ≥ 62400 ∧ nHeight < 64000) ∨ nHeight ≥ 64595 then
    ep.nReTargetHistoryFact * ep.nInterval
  else b1

/-- Lines 74-76 with `n` iterations left: follow `pprev` while the pointer is
not `NULL`. -/
def walkBack : Nat → BlockPtr → BlockPtr
  | 0, p => p
  | _ + 1, .null => .null
  | n + 1, .node _ _ _ pprev => walkBack n pprev

/-- Lines 83-87: the unclamped `nActualTimespan`.  `GetBlockTime()` is the
block's time as an `int64_t`. -/
def rawTimespan (nHeight : Nat) (lastTime firstTime : Nat) (ep : Epoch) :
    Except Failure Int :=
  if nHeight ≥ 64595 then
    cdiv ((lastTime : Int) - (firstTime : Int)) ep.nReTargetHistoryFact
  else .ok ((lastTime : Int) - (firstTime : Int))

/-- Lines 89-109: the clamp of `nActualTimespan`.  In each bracket the two
tests run one after the other, the second on the value the first left.  The
products `nTargetTimespan*4` and `nTargetTimespan*8` are `int64_t` products.

The middle bracket compares with `nTargetTimespan/1.1` and
`nTargetTimespan*1.1` in double precision and stores the double, truncated,
in the `int64_t`.  That bracket is entered only at heights from 64079 on,
where `nTargetTimespan` is 1800: the two doubles are 1636.36... and
1980.0000000000002, so for an integer `a` the tests are `a ≤ 1636` and
`a ≥ 1981` and the stored values are 1636 and 1980.  The integer formulas
below give exactly these at 1800. -/
def clampTimespan (nHeight : Nat) (nTargetTimespan : Int) (a : Int) : Int :=
  if nHeight < 25199 ∨ (nHeight ≥ 60000 ∧ nHeight < 64079) then
    let a1 := if a < Int.tdiv nTargetTimespan 4 then Int.tdiv nTargetTimespan 4 else a
    if a1 > wrap64 (nTargetTimespan * 4) then wrap64 (nTargetTimespan * 4) else a1
  else if nHeight ≥ 64079 then
    let a1 := if 11 * a < 10 * nTargetTimespan then Int.tdiv (10 * nTargetTimespan) 11 else a
    if 10 * a1 > 11 * nTargetTimespan then Int.tdiv (11 * nTargetTimespan) 10 else a1
  else
    let a1 := if a < Int.tdiv nTargetTimespan 2 then Int.tdiv nTargetTimespan 2 else a
    if a1 > wrap64 (nTargetTimespan * 8) then wrap64 (nTargetTimespan * 8) else a1

/-- Lines 112-120: the adjusted magnitude `bnNew` before the `powLimit`
clamp, from the decoded target `p` of the tip.

`operator*=` of `arith_uint256` takes a `uint32_t`, so the `int64_t` timespan
is narrowed to 32 bits; `operator/=` takes an `arith_uint256`, built from the
timespan converted to `uint64_t`, and reports a zero divisor.  Products and
the left shift wrap at 256 bits. -/
def adjustTarget (p : Nat) (nActualTimespan nTargetTimespan : Int) : Except Failure Nat :=
  let fShift : Bool := decide (bits p > 235)
  let b1 : Nat := if fShift then p / 2 else p
  let b2 : Nat := (b1 * (nActualTimespan % 2 ^ 32).toNat) % 2 ^ 256
  let d : Nat := (nTargetTimespan % 2 ^ 64).toNat
  if d = 0 then .error .divisionByZero
  else
    let b3 : Nat := b2 / d
    .ok (if fShift then (b3 * 2) % 2 ^ 256 else b3)

/-- Lines 122-124: the clamp to `powLimit`. -/
def limitTarget (bnNew bnPowLimit : Nat) : Nat :=
  if bnNew > bnPowLimit then bnPowLimit else bnNew

/-- The state of a call that has passed the assertion on line 77. -/
structure Boundary where
  nHeight : Nat
  nTime : Nat
  nBits : Nat
  ep : Epoch
  firstTime : Nat
  deriving DecidableEq

/-- Where a call stands after line 77: it has returned a compact target
(lines 23, 53, 60 or 63) or it is on a boundary block with `pindexFirst`
found. -/
inductive Progress where
  | returned (nBits : Nat) : Progress
  | boundary (st : Boundary) : Progress
  deriving DecidableEq

/-- Line 52: the `int64_t` value of
`pindexLast->GetBlockTime() + nTargetSpacing*2`. -/
def lateThreshold (nTime : Nat) (nTargetSpacing : Int) : Int :=
  wrap64 ((nTime : Int) + wrap64 (nTargetSpacing * 2))

/-- Lines 15-77 of `GetNextWorkRequired`. -/
def lookBack (cd : Codec) (pindexLast : BlockPtr) (blockTime : Nat) (params : Params) :
    Except Failure Progress :=
  let nProofOfWorkLimit := cd.GetCompact params.powLimit
  match pindexLast with
  | .null => .ok (.returned nProofOfWorkLimit)
  | .node nHeight nTime nBits pprev =>
    match bracketEpoch nHeight params with
    | .error e => .error e
    | .ok ep =>
      match cmod ((nHeight : Int) + 1) ep.nInterval with
      | .error e => .error e
      | .ok r =>
        if r ≠ 0 then
          if params.fPowAllowMinDifficultyBlocks then
            if (blockTime : Int) > lateThreshold nTime ep.nTargetSpacing then
              .ok (.returned nProofOfWorkLimit)
            else
              .ok (.returned (minDifficultyWalk ep.nInterval nProofOfWorkLimit
                (.node nHeight nTime nBits pprev)))
          else .ok (.returned nBits)
        else
          match walkBack (blocksToGoBack nHeight ep).toNat (.node nHeight nTime nBits pprev) with
          | .null => .error .assertionFailed
          | .node _ firstTime _ _ =>
            .ok (.boundary
              { nHeight := nHeight, nTime := nTime, nBits := nBits, ep := ep,
                firstTime := firstTime })

/-- Lines 83-120: the actual timespan, its clamp and the adjusted magnitude,
before the `powLimit` clamp. -/
def adjustedTarget (cd : Codec) (st : Boundary) : Except Failure Nat :=
  match rawTimespan st.nHeight st.nTime st.firstTime st.ep with
  | .error e => .error e
  | .ok a =>
    adjustTarget (cd.SetCompact st.nBits).magnitude
      (clampTimespan st.nHeight st.ep.nTargetTimespan a) st.ep.nTargetTimespan

/-- Lines 79-126 of `GetNextWorkRequired`, from the state after the
assertion. -/
def retarget (cd : Codec) (params : Params) (st : Boundary) : Except Failure Nat :=
  if params.fPowNoRetargeting then .ok st.nBits
  else
    match adjustedTarget cd st with
    | .error e => .error e
    | .ok bnNew => .ok (cd.GetCompact (limitTarget bnNew params.powLimit))

/-- `GetNextWorkRequired(pindexLast, pblock, params)`; of `pblock` only
`GetBlockTime()` is read, passed as `blockTime`. -/
def GetNextWorkRequired (cd : Codec) (pindexLast : BlockPtr) (blockTime : Nat)
    (params : Params) : Except Failure Nat :=
  match lookBack cd pindexLast blockTime params with
  | .error e => .error e
  | .ok (.returned nBits) => .ok nBits
  | .ok (.boundary st) => retarget cd params st

/-- `CheckProofOfWork(hash, nBits, params)`; `hash` is the hash read as an
unsigned 256-bit magnitude (`UintToArith256(hash)`). -/
def CheckProofOfWork (cd : Codec) (hash : Nat) (nBits : Nat) (params : Params) : Bool :=
  let bnTarget := cd.SetCompact nBits
  if bnTarget.fNegative || bnTarget.magnitude == 0 || bnTarget.fOverflow
      || decide (bnTarget.magnitude > params.powLimit) then
    false
  else if hash > bnTarget.magnitude then
    false
  else
    true

/-- Modelled from the spec: `arith_uint256::SetCompact` (`arith_uint256.h` is
not among the sources).  Section 3 and the glossary: a 32-bit value with one
exponent byte and three mantissa bytes, the sign in the mantissa's top bit,
decoded to a 256-bit magnitude with the negative and overflow conditions
reported explicitly. -/
def SetCompact (nCompact : Nat) : Decoded :=
  let c := nCompact % 2 ^ 32
  let nSize := c / 2 ^ 24
  let nWord := c % 2 ^ 23
  { magnitude :=
      if nSize ≤ 3 then nWord / 2 ^ (8 * (3 - nSize))
      else (nWord * 2 ^ (8 * (nSize - 3))) % 2 ^ 256
    fNegative := decide (nWord ≠ 0) && decide (c / 2 ^ 23 % 2 = 1)
    fOverflow := decide (nWord ≠ 0) &&
      (decide (nSize > 34) || (decide (nWord > 255) && decide (nSize > 33))
        || (decide (nWord > 65535) && decide (nSize > 32))) }

/-- Modelled from the spec: `arith_uint256::GetCompact` (`arith_uint256.h` is
not among the sources), the encoder of the same format: the byte length as
exponent, the top three bytes as mantissa, moved down one byte when the
mantissa's top bit would read as a sign. -/
def GetCompact (n : Nat) : Nat :=
  let nSize := (bits n + 7) / 8
  let m := if nSize ≤ 3 then (n * 2 ^ (8 * (3 - nSize))) % 2 ^ 32
           else (n / 2 ^ (8 * (nSize - 3))) % 2 ^ 32
  if m / 2 ^ 23 % 2 = 1 then (m / 2 ^ 8 + (nSize + 1) * 2 ^ 24) % 2 ^ 32
  else (m + nSize * 2 ^ 24) % 2 ^ 32

/-- The codec of Bitcoin's compact format, used for concrete inputs. -/
def compactCodec : Codec where
  SetCompact := SetCompact
  GetCompact := GetCompact
  magnitude_lt := by
    intro nCompact
    unfold SetCompact
    dsimp only
    split
    · have h1 : nCompact % 2 ^ 32 % 2 ^ 23 < 2 ^ 23 := Nat.mod_lt _ (by norm_num)
      have h2 : nCompact % 2 ^ 32 % 2 ^ 23 / 2 ^ (8 * (3 - nCompact % 2 ^ 32 / 2 ^ 24))
          ≤ nCompact % 2 ^ 32 % 2 ^ 23 := Nat.div_le_self _ _
      have h3 : (2 : Nat) ^ 23 < 2 ^ 256 := by norm_num
      omega
    · exact Nat.mod_lt _ (by norm_num)

deriving instance DecidableEq for Except

/-- Parameters used for concrete inputs. -/
def sampleParams : Params where
  powLimit := 0xfffff * 2 ^ 216
  nPowTargetTimespan := 302400
  nPowTargetSpacing := 150
  fPowAllowMinDifficultyBlocks := false
  fPowNoRetargeting := false

/-- The epoch of a tip of height `nHeight`: lines 16-42 with the quotient of line 18. -/
def epochOf (nHeight : Nat) (params : Params) : Epoch :=
  selectEpoch nHeight params (Int.tdiv params.nPowTargetTimespan params.nPowTargetSpacing)

/-- Number of nodes reachable from a pointer through `pprev`, itself included. -/
def chainLength : BlockPtr → Nat
  | .null => 0
  | .node _ _ _ pprev => chainLength pprev + 1

/-- The range of an `int64_t`. -/
def IsInt64 (x : Int) : Prop := -2 ^ 63 ≤ x ∧ x < 2 ^ 63

/-- A well-formed chain with tip height `n`: heights `n, ..., 0`, genesis time `time0`, one
block every `spacing` seconds, every block with the compact target `nBits`. -/
def sampleChain (nBits time0 spacing : Nat) : Nat → BlockPtr
  | 0 => .node 0 time0 nBits .null
  | n + 1 => .node (n + 1) (time0 + (n + 1) * spacing) nBits (sampleChain nBits time0 spacing n)

/-- Parameters whose target spacing is zero. -/
def zeroSpacingParams : Params where
  powLimit := 0xfffff * 2 ^ 216
  nPowTargetTimespan := 302400
  nPowTargetSpacing := 0
  fPowAllowMinDifficultyBlocks := false
  fPowNoRetargeting := false

/-- The unclamped timespan as a total function, for a non-zero history factor. -/
def rawTimespanValue (nHeight : Nat) (lastTime firstTime : Nat) (ep : Epoch) : Int :=
  if nHeight ≥ 64595 then Int.tdiv ((lastTime : Int) - (firstTime : Int)) ep.nReTargetHistoryFact
  else (lastTime : Int) - (firstTime : Int)

/-- The adjusted magnitude as a total function, for a non-zero divisor. -/
def adjustTargetValue (p : Nat) (nActualTimespan nTargetTimespan : Int) : Nat :=
  if bits p > 235 then
    ((p / 2 * (nActualTimespan % 2 ^ 32).toNat) % 2 ^ 256
      / (nTargetTimespan % 2 ^ 64).toNat * 2) % 2 ^ 256
  else (p * (nActualTimespan % 2 ^ 32).toNat) % 2 ^ 256 / (nTargetTimespan % 2 ^ 64).toNat

/-- Parameters whose target timespan is shorter than the target spacing. -/
def shortTimespanParams : Params where
  powLimit := 0xfffff * 2 ^ 216
  nPowTargetTimespan := 100
  nPowTargetSpacing := 150
  fPowAllowMinDifficultyBlocks := false
  fPowNoRetargeting := false

/-- Parameters with retargeting switched off. -/
def noRetargetParams : Params where
  powLimit := 0xfffff * 2 ^ 216
  nPowTargetTimespan := 302400
  nPowTargetSpacing := 150
  fPowAllowMinDifficultyBlocks := false
  fPowNoRetargeting := true

instance (x : Int) : Decidable (IsInt64 x) := by
  unfold IsInt64
  infer_instance

/-- Parameters whose `powLimit` is the widest target of the compact format. -/
def wideParams : Params where
  powLimit := 0x7fffff * 2 ^ 232
  nPowTargetTimespan := 302400
  nPowTargetSpacing := 150
  fPowAllowMinDifficultyBlocks := false
  fPowNoRetargeting := false

/-- The state after line 77 for the tip of `sampleChain nBits 1000 spacing nHeight` when the
walk went `back` blocks back. -/
def sampleBoundary (nBits spacing nHeight back : Nat) (params : Params) : Boundary where
  nHeight := nHeight
  nTime := 1000 + nHeight * spacing
  nBits := nBits
  ep := epochOf nHeight params
  firstTime := 1000 + (nHeight - back) * spacing

/-- Whether a call went past the test of line 45 into the retarget branch (lines 66-126):
it then either failed on the assertion of line 77 or passed it. -/
def retargetAttempted : Except Failure Progress → Bool
  | .error .assertionFailed => true
  | .ok (.boundary _) => true
  | _ => false

/-- The walk of section 4.1 step 3 in the spec's words: a node breaks the walk when it has
no predecessor, or its height is a multiple of the interval, or its stored target differs
from the compact `powLimit`.  (`null` is not a node; nothing is walked from it.) -/
def stopsWalk (nInterval : Int) (nProofOfWorkLimit : Nat) : BlockPtr → Prop
  | .null => True
  | .node nHeight _ nBits pprev =>
    pprev = .null ∨ Int.tmod (nHeight : Int) nInterval = 0 ∨ nBits ≠ nProofOfWorkLimit

/-- Parameters of a test network: blocks of minimal difficulty are allowed. -/
def minDifficultyParams : Params where
  powLimit := 0xfffff * 2 ^ 216
  nPowTargetTimespan := 302400
  nPowTargetSpacing := 150
  fPowAllowMinDifficultyBlocks := true
  fPowNoRetargeting := false

/-- Test-network parameters whose target spacing is close to half the `int64_t` range; the
interval is 2. -/
def hugeSpacingParams : Params where
  powLimit := 0xfffff * 2 ^ 216
  nPowTargetTimespan := 2 ^ 63 - 1
  nPowTargetSpacing := 2 ^ 62 - 1
  fPowAllowMinDifficultyBlocks := true
  fPowNoRetargeting := false

/-- Parameters whose target timespan is above a quarter of the `int64_t` range; the interval
is 16. -/
def hugeTimespanParams : Params where
  powLimit := 0xfffff * 2 ^ 216
  nPowTargetTimespan := 2 ^ 62 + 4
  nPowTargetSpacing := 2 ^ 58
  fPowAllowMinDifficultyBlocks := false
  fPowNoRetargeting := false

/-- A well-formed chain in the spec's words (section 3): the genesis node has height 0 and
no predecessor, and every other node's height is its predecessor's height plus one. -/
def WellFormed : BlockPtr → Prop
  | .null => True
  | .node nHeight _ _ .null => nHeight = 0
  | .node nHeight _ _ (.node h t b p) => nHeight = h + 1 ∧ WellFormed (.node h t b p)

/-- The first `n` blocks from a pointer back each carry a timestamp exactly `spacing`
seconds after their predecessor's. -/
def evenlySpaced (spacing : Nat) : Nat → BlockPtr → Prop
  | 0, _ => True
  | n + 1, .node _ nTime _ (.node h t b p) =>
    nTime = t + spacing ∧ evenlySpaced spacing n (.node h t b p)
  | _ + 1, _ => True

/-! ## Theorems -/

set_option maxRecDepth 8192

/-- C1: `CheckProofOfWork` rejects every invalid target whatever the hash: if decoding
`nBits` reports the negative flag or the overflow flag, or yields magnitude zero, or a
magnitude above `powLimit`, the result is `false`.  The function is total and returns a
boolean. -/
theorem C1_invalid_target_rejected (cd : Codec) (hash nBits : Nat) (params : Params)
    (h : (cd.SetCompact nBits).fNegative = true ∨ (cd.SetCompact nBits).fOverflow = true
      ∨ (cd.SetCompact nBits).magnitude = 0
      ∨ (cd.SetCompact nBits).magnitude > params.powLimit) :
    CheckProofOfWork cd hash nBits params = false := by
  unfold CheckProofOfWork
  rcases h with h | h | h | h <;> simp [h]

/-- The compact value 0 decodes to magnitude zero and is rejected. -/
theorem C1_witness :
    (compactCodec.SetCompact 0).magnitude = 0
      ∧ CheckProofOfWork compactCodec 5 0 sampleParams = false :=
  ⟨by decide, C1_invalid_target_rejected compactCodec 5 0 sampleParams
    (Or.inr (Or.inr (Or.inl (by decide))))⟩

/-- C2: for a compact value that decodes to a valid target (not negative, not overflowing,
positive and at most `powLimit`), `CheckProofOfWork` is `true` exactly when the hash, as an
unsigned magnitude, is at most the target; in particular a hash equal to the target passes. -/
theorem C2_valid_target_iff (cd : Codec) (hash nBits : Nat) (params : Params)
    (hneg : (cd.SetCompact nBits).fNegative = false)
    (hovf : (cd.SetCompact nBits).fOverflow = false)
    (hpos : 0 < (cd.SetCompact nBits).magnitude)
    (hlim : (cd.SetCompact nBits).magnitude ≤ params.powLimit) :
    (CheckProofOfWork cd hash nBits params = true ↔ hash ≤ (cd.SetCompact nBits).magnitude)
      ∧ CheckProofOfWork cd (cd.SetCompact nBits).magnitude nBits params = true := by
  have key : ∀ x : Nat, CheckProofOfWork cd x nBits params = true
      ↔ x ≤ (cd.SetCompact nBits).magnitude := by
    intro x
    unfold CheckProofOfWork
    have h0 : (cd.SetCompact nBits).magnitude ≠ 0 := Nat.pos_iff_ne_zero.mp hpos
    simp [hneg, hovf, h0, Nat.not_lt.mpr hlim]
  exact ⟨key hash, (key _).mpr (Nat.le_refl _)⟩

/-- The target of `0x1d00ffff` is valid under the sample parameters, and a hash equal to it
passes while the next larger hash does not. -/
theorem C2_witness :
    (compactCodec.SetCompact 0x1d00ffff).fNegative = false
      ∧ (compactCodec.SetCompact 0x1d00ffff).fOverflow = false
      ∧ 0 < (compactCodec.SetCompact 0x1d00ffff).magnitude
      ∧ (compactCodec.SetCompact 0x1d00ffff).magnitude ≤ sampleParams.powLimit
      ∧ ((CheckProofOfWork compactCodec (0xffff * 2 ^ 208 + 1) 0x1d00ffff sampleParams = true
            ↔ 0xffff * 2 ^ 208 + 1 ≤ (compactCodec.SetCompact 0x1d00ffff).magnitude)
          ∧ CheckProofOfWork compactCodec (compactCodec.SetCompact 0x1d00ffff).magnitude
              0x1d00ffff sampleParams = true) :=
  ⟨by decide, by decide, by decide, by decide,
    C2_valid_target_iff compactCodec (0xffff * 2 ^ 208 + 1) 0x1d00ffff sampleParams
      (by decide) (by decide) (by decide) (by decide)⟩

theorem CheckProofOfWork_eq_true_iff (cd : Codec) (hash nBits : Nat) (params : Params) :
    CheckProofOfWork cd hash nBits params = true ↔
      ((cd.SetCompact nBits).fNegative = false ∧ (cd.SetCompact nBits).magnitude ≠ 0
        ∧ (cd.SetCompact nBits).fOverflow = false
        ∧ (cd.SetCompact nBits).magnitude ≤ params.powLimit)
      ∧ hash ≤ (cd.SetCompact nBits).magnitude := by
  unfold CheckProofOfWork
  simp only []
  by_cases hc : ((cd.SetCompact nBits).fNegative || (cd.SetCompact nBits).magnitude == 0
      || (cd.SetCompact nBits).fOverflow
      || decide ((cd.SetCompact nBits).magnitude > params.powLimit)) = true
  · rw [if_pos hc]
    simp only [Bool.or_eq_true, beq_iff_eq, decide_eq_true_eq] at hc
    constructor
    · intro h
      exact absurd h (by simp)
    · rintro ⟨⟨h1, h2, h3, h4⟩, _⟩
      rcases hc with ((hc | hc) | hc) | hc
      · rw [h1] at hc
        exact absurd hc (by simp)
      · exact absurd hc h2
      · rw [h3] at hc
        exact absurd hc (by simp)
      · omega
  · rw [if_neg hc]
    simp only [Bool.or_eq_true, beq_iff_eq, decide_eq_true_eq, not_or, Bool.not_eq_true] at hc
    obtain ⟨⟨⟨h1, h2⟩, h3⟩, h4⟩ := hc
    by_cases hh : hash > (cd.SetCompact nBits).magnitude
    · rw [if_pos hh]
      constructor
      · intro h
        exact absurd h (by simp)
      · rintro ⟨_, h5⟩
        omega
    · rw [if_neg hh]
      constructor
      · intro _
        exact ⟨⟨h1, h2, h3, by omega⟩, by omega⟩
      · intro _
        rfl

/-- C3: `CheckProofOfWork` is anti-monotonic in the hash: if a hash passes, every smaller
hash passes for the same `nBits` and parameters. -/
theorem C3_anti_monotone (cd : Codec) (nBits : Nat) (params : Params) (hash1 hash2 : Nat)
    (hle : hash1 ≤ hash2) (h2 : CheckProofOfWork cd hash2 nBits params = true) :
    CheckProofOfWork cd hash1 nBits params = true := by
  rw [CheckProofOfWork_eq_true_iff] at h2 ⊢
  exact ⟨h2.1, Nat.le_trans hle h2.2⟩

/-- The hash 7 passes because the hash equal to the target of `0x1d00ffff` does. -/
theorem C3_witness :
    7 ≤ 0xffff * 2 ^ 208
      ∧ CheckProofOfWork compactCodec (0xffff * 2 ^ 208) 0x1d00ffff sampleParams = true
      ∧ CheckProofOfWork compactCodec 7 0x1d00ffff sampleParams = true :=
  ⟨by decide, by decide,
    C3_anti_monotone compactCodec 0x1d00ffff sampleParams 7 (0xffff * 2 ^ 208)
      (by decide) (by decide)⟩

theorem walkBack_eq_null_iff (n : Nat) (p : BlockPtr) :
    walkBack n p = .null ↔ chainLength p ≤ n := by
  induction n generalizing p with
  | zero =>
    cases p with
    | null => simp [walkBack, chainLength]
    | node h t b q => simp [walkBack, chainLength]
  | succ k ih =>
    cases p with
    | null => simp [walkBack, chainLength]
    | node h t b q =>
      simp only [walkBack, chainLength]
      rw [ih q]
      omega

theorem wrap64_eq (x : Int) (h1 : -2 ^ 63 ≤ x) (h2 : x < 2 ^ 63) : wrap64 x = x := by
  unfold wrap64
  omega

theorem cdiv_eq_ok (a b i : Int) (h : cdiv a b = .ok i) :
    b ≠ 0 ∧ ¬ (a = -2 ^ 63 ∧ b = -1) ∧ i = Int.tdiv a b := by
  unfold cdiv at h
  by_cases hb : b = 0
  · rw [if_pos hb] at h
    cases h
  · rw [if_neg hb] at h
    by_cases ho : a = -2 ^ 63 ∧ b = -1
    · rw [if_pos ho] at h
      cases h
    · rw [if_neg ho] at h
      simp only [Except.ok.injEq] at h
      exact ⟨hb, ho, h.symm⟩

theorem cdiv_ok (a b : Int) (hb : b ≠ 0) (ho : ¬ (a = -2 ^ 63 ∧ b = -1)) :
    cdiv a b = .ok (Int.tdiv a b) := by
  unfold cdiv
  rw [if_neg hb, if_neg ho]

theorem epochOf_early (h : Nat) (params : Params) (hh : h < 25199) :
    epochOf h params =
      { nTargetTimespan := params.nPowTargetTimespan
        nTargetSpacing := params.nPowTargetSpacing
        nInterval := Int.tdiv params.nPowTargetTimespan params.nPowTargetSpacing
        nReTargetHistoryFact := 12 } := by
  unfold epochOf selectEpoch
  rw [if_neg (by omega), if_neg (by omega)]

theorem epochOf_middle (h : Nat) (params : Params) (h1 : 25199 ≤ h) (h2 : h < 64007) :
    epochOf h params =
      { nTargetTimespan := 7200, nTargetSpacing := 150, nInterval := 48,
        nReTargetHistoryFact := 12 } := by
  unfold epochOf selectEpoch
  rw [if_pos ⟨h1, h2⟩]
  rfl

theorem epochOf_late (h : Nat) (params : Params) (h1 : 64007 ≤ h) :
    epochOf h params =
      { nTargetTimespan := 1800, nTargetSpacing := 150, nInterval := 12,
        nReTargetHistoryFact := if h < 68999 then 48 else 4 } := by
  unfold epochOf selectEpoch
  rw [if_neg (by omega), if_pos h1]
  rfl

theorem epochOf_timespan_high (h : Nat) (params : Params) (hh : 25199 ≤ h) :
    (epochOf h params).nTargetTimespan = 7200 ∨ (epochOf h params).nTargetTimespan = 1800 := by
  by_cases h2 : h < 64007
  · left
    rw [epochOf_middle h params hh h2]
  · right
    rw [epochOf_late h params (by omega)]

theorem epochOf_interval_high (h : Nat) (params : Params) (hh : 25199 ≤ h) :
    (epochOf h params).nInterval ≠ 0 := by
  by_cases h2 : h < 64007
  · rw [epochOf_middle h params hh h2]
    simp
  · rw [epochOf_late h params (by omega)]
    simp

theorem epoch_timespan_int64 (h : Nat) (params : Params)
    (hT : h < 25199 → IsInt64 params.nPowTargetTimespan) :
    IsInt64 (epochOf h params).nTargetTimespan := by
  by_cases hh : h < 25199
  · rw [epochOf_early h params hh]
    exact hT hh
  · rcases epochOf_timespan_high h params (by omega) with e | e
    · rw [e]
      decide
    · rw [e]
      decide

theorem bracketEpoch_high (h : Nat) (params : Params) (hh : 25199 ≤ h) :
    bracketEpoch h params = .ok (epochOf h params) := by
  unfold bracketEpoch epochOf selectEpoch
  by_cases h1 : h ≥ 25199 ∧ h < 64007
  · rw [if_pos h1, if_pos h1]
  · have h2 : h ≥ 64007 := by omega
    rw [if_neg h1, if_neg h1, if_pos h2, if_pos h2]

theorem bracketEpoch_low (h : Nat) (params : Params) (hh : h < 25199) (i : Int)
    (hi : cdiv params.nPowTargetTimespan params.nPowTargetSpacing = .ok i) :
    bracketEpoch h params = .ok (epochOf h params) ∧ (epochOf h params).nInterval = i := by
  obtain ⟨_, _, e⟩ := cdiv_eq_ok _ _ _ hi
  unfold bracketEpoch epochOf selectEpoch
  rw [if_neg (by omega), if_neg (by omega), if_neg (by omega), if_neg (by omega), hi, e]
  exact ⟨rfl, rfl⟩

theorem bracketEpoch_eq_ok (h : Nat) (params : Params) (ep : Epoch)
    (hE : bracketEpoch h params = .ok ep) : ep = epochOf h params := by
  by_cases hh : 25199 ≤ h
  · rw [bracketEpoch_high h params hh] at hE
    simp only [Except.ok.injEq] at hE
    exact hE.symm
  · cases hc : cdiv params.nPowTargetTimespan params.nPowTargetSpacing with
    | error e =>
      unfold bracketEpoch at hE
      rw [if_neg (by omega), if_neg (by omega), hc] at hE
      cases hE
    | ok i =>
      rw [(bracketEpoch_low h params (by omega) i hc).1] at hE
      simp only [Except.ok.injEq] at hE
      exact hE.symm

theorem bracketEpoch_low_error (h : Nat) (params : Params) (hh : h < 25199) (e : Failure)
    (hc : cdiv params.nPowTargetTimespan params.nPowTargetSpacing = .error e) :
    bracketEpoch h params = .error e := by
  unfold bracketEpoch
  rw [if_neg (by omega), if_neg (by omega), hc]

theorem lookBack_node_eq (cd : Codec) (h tm nb : Nat) (prev : BlockPtr) (t : Nat)
    (params : Params) (ep : Epoch) (hE : bracketEpoch h params = .ok ep)
    (hI : ep.nInterval ≠ 0) :
    lookBack cd (.node h tm nb prev) t params =
      if Int.tmod ((h : Int) + 1) ep.nInterval ≠ 0 then
        if params.fPowAllowMinDifficultyBlocks then
          if (t : Int) > lateThreshold tm ep.nTargetSpacing then
            .ok (.returned (cd.GetCompact params.powLimit))
          else
            .ok (.returned (minDifficultyWalk ep.nInterval
              (cd.GetCompact params.powLimit) (.node h tm nb prev)))
        else .ok (.returned nb)
      else
        match walkBack (blocksToGoBack h ep).toNat (.node h tm nb prev) with
        | .null => .error .assertionFailed
        | .node _ firstTime _ _ =>
          .ok (.boundary
            { nHeight := h, nTime := tm, nBits := nb, ep := ep,
              firstTime := firstTime }) := by
  simp only [lookBack, hE, cmod, if_neg hI]

/-- C4: for every candidate timestamp and all parameters, `GetNextWorkRequired` on a `NULL`
tip returns the compact encoding of `powLimit`. -/
theorem C4_genesis (cd : Codec) (blockTime : Nat) (params : Params) :
    GetNextWorkRequired cd .null blockTime params = .ok (cd.GetCompact params.powLimit) := by
  simp only [GetNextWorkRequired, lookBack]

/-- The genesis case under parameters whose target spacing is zero. -/
theorem C4_genesis_witness :
    GetNextWorkRequired compactCodec .null 1000 zeroSpacingParams
      = .ok (compactCodec.GetCompact zeroSpacingParams.powLimit) :=
  C4_genesis compactCodec 1000 zeroSpacingParams

/-- C5: for a non-null tip of height `h` and parameters with the min-difficulty switch
off, if the interval of the bracket of `h` (the value `ep.nInterval` of lines 16-42) is
defined and `(h + 1) mod interval` is not zero, then `GetNextWorkRequired` returns the tip's
own `nBits`, whatever the candidate timestamp and the rest of the chain. -/
theorem C5_identity (cd : Codec) (nHeight nTime nBits : Nat) (pprev : BlockPtr)
    (blockTime : Nat) (params : Params) (ep : Epoch)
    (hmin : params.fPowAllowMinDifficultyBlocks = false)
    (hE : bracketEpoch nHeight params = .ok ep)
    (hI : ep.nInterval ≠ 0)
    (hnb : Int.tmod ((nHeight : Int) + 1) ep.nInterval ≠ 0) :
    GetNextWorkRequired cd (.node nHeight nTime nBits pprev) blockTime params = .ok nBits := by
  unfold GetNextWorkRequired
  rw [lookBack_node_eq cd nHeight nTime nBits pprev blockTime params ep hE hI, if_pos hnb, hmin]
  rfl

/-- Tip height 25198 under the sample parameters: the interval 2016 does not divide 25199.
At tip height 25200 the interval is 48 whatever the parameters, a target spacing of zero
included. -/
theorem C5_identity_witness :
    (sampleParams.fPowAllowMinDifficultyBlocks = false
      ∧ bracketEpoch 25198 sampleParams = .ok (epochOf 25198 sampleParams)
      ∧ (epochOf 25198 sampleParams).nInterval ≠ 0
      ∧ Int.tmod ((25198 : Int) + 1) (epochOf 25198 sampleParams).nInterval ≠ 0
      ∧ GetNextWorkRequired compactCodec (sampleChain 0x1d00ffff 1000 150 25198) 0 sampleParams
          = .ok 0x1d00ffff)
    ∧ GetNextWorkRequired compactCodec (sampleChain 0x1d00ffff 1000 150 25200) 0
        zeroSpacingParams = .ok 0x1d00ffff :=
  ⟨⟨by decide, by decide, by decide, by decide,
    C5_identity compactCodec 25198 (1000 + (25197 + 1) * 150) 0x1d00ffff
      (sampleChain 0x1d00ffff 1000 150 25197) 0 sampleParams (epochOf 25198 sampleParams)
      (by decide) (by decide) (by decide) (by decide)⟩,
    C5_identity compactCodec 25200 (1000 + (25199 + 1) * 150) 0x1d00ffff
      (sampleChain 0x1d00ffff 1000 150 25199) 0 zeroSpacingParams
      (epochOf 25200 zeroSpacingParams) (by decide) (by decide) (by decide) (by decide)⟩

theorem lookBack_bracket_error (cd : Codec) (h tm nb : Nat) (prev : BlockPtr) (t : Nat)
    (params : Params) (e : Failure) (hE : bracketEpoch h params = .error e) :
    lookBack cd (.node h tm nb prev) t params = .error e := by
  simp only [lookBack, hE]

theorem lookBack_zero_interval (cd : Codec) (h tm nb : Nat) (prev : BlockPtr) (t : Nat)
    (params : Params) (ep : Epoch) (hE : bracketEpoch h params = .ok ep)
    (hI : ep.nInterval = 0) :
    lookBack cd (.node h tm nb prev) t params = .error .divisionByZero := by
  simp only [lookBack, hE, cmod, if_pos hI]

theorem lookBack_boundary_inv (cd : Codec) (h tm nb : Nat) (prev : BlockPtr) (t : Nat)
    (params : Params) (st : Boundary)
    (hst : lookBack cd (.node h tm nb prev) t params = .ok (.boundary st)) :
    bracketEpoch h params = .ok (epochOf h params) ∧ (epochOf h params).nInterval ≠ 0
      ∧ Int.tmod ((h : Int) + 1) (epochOf h params).nInterval = 0
      ∧ st.nHeight = h ∧ st.nTime = tm ∧ st.nBits = nb ∧ st.ep = epochOf h params
      ∧ ∃ fh fb fp, walkBack (blocksToGoBack h (epochOf h params)).toNat (.node h tm nb prev)
          = .node fh st.firstTime fb fp := by
  cases hE0 : bracketEpoch h params with
  | error e =>
    rw [lookBack_bracket_error cd h tm nb prev t params e hE0] at hst
    cases hst
  | ok ep =>
    have hep := bracketEpoch_eq_ok h params ep hE0
    subst hep
    by_cases hI : (epochOf h params).nInterval = 0
    · rw [lookBack_zero_interval cd h tm nb prev t params _ hE0 hI] at hst
      cases hst
    rw [lookBack_node_eq cd h tm nb prev t params _ hE0 hI] at hst
    by_cases hb : Int.tmod ((h : Int) + 1) (epochOf h params).nInterval = 0
    · rw [if_neg (not_not.mpr hb)] at hst
      cases hw : walkBack (blocksToGoBack h (epochOf h params)).toNat (.node h tm nb prev) with
      | null =>
        rw [hw] at hst
        cases hst
      | node fh ft fb fp =>
        rw [hw] at hst
        simp only [Except.ok.injEq, Progress.boundary.injEq] at hst
        subst hst
        exact ⟨rfl, hI, hb, rfl, rfl, rfl, rfl, fh, fb, fp, rfl⟩
    · rw [if_pos hb] at hst
      split at hst
      · split at hst <;> cases hst
      · cases hst

theorem epoch_fact_pos (h : Nat) (params : Params) :
    0 < (epochOf h params).nReTargetHistoryFact := by
  unfold epochOf selectEpoch
  split
  · simp
  · split
    · dsimp only
      split <;> simp
    · simp

theorem epoch_divisor_ne_zero (h : Nat) (params : Params)
    (hT : h < 25199 → IsInt64 params.nPowTargetTimespan)
    (hI : (epochOf h params).nInterval ≠ 0) :
    ((epochOf h params).nTargetTimespan % 2 ^ 64).toNat ≠ 0 := by
  unfold epochOf selectEpoch at hI ⊢
  split
  · dsimp only
    omega
  · split
    · dsimp only
      omega
    · rename_i h1 h2
      rw [if_neg h1, if_neg h2] at hI
      dsimp only at hI ⊢
      have hne : params.nPowTargetTimespan ≠ 0 := by
        intro h0
        rw [h0] at hI
        simp at hI
      have hT' := hT (by omega)
      unfold IsInt64 at hT'
      omega

theorem rawTimespan_ok (nHeight lastTime firstTime : Nat) (ep : Epoch)
    (hF : 0 < ep.nReTargetHistoryFact) :
    rawTimespan nHeight lastTime firstTime ep
      = .ok (rawTimespanValue nHeight lastTime firstTime ep) := by
  unfold rawTimespan rawTimespanValue
  by_cases hh : nHeight ≥ 64595
  · rw [if_pos hh, if_pos hh]
    exact cdiv_ok _ _ (by omega) (by omega)
  · rw [if_neg hh, if_neg hh]

theorem adjustTarget_ok (p : Nat) (a T : Int) (hd : (T % 2 ^ 64).toNat ≠ 0) :
    adjustTarget p a T = .ok (adjustTargetValue p a T) := by
  unfold adjustTarget adjustTargetValue
  simp only [if_neg hd]
  by_cases hb : bits p > 235
  · simp only [hb, decide_True, if_true]
  · simp only [hb, decide_False, if_false, Bool.false_eq_true]

theorem adjustedTarget_ok (cd : Codec) (params : Params) (st : Boundary)
    (hep : st.ep = epochOf st.nHeight params)
    (hT : st.nHeight < 25199 → IsInt64 params.nPowTargetTimespan)
    (hI : (epochOf st.nHeight params).nInterval ≠ 0) :
    adjustedTarget cd st = .ok (adjustTargetValue (cd.SetCompact st.nBits).magnitude
      (clampTimespan st.nHeight st.ep.nTargetTimespan
        (rawTimespanValue st.nHeight st.nTime st.firstTime st.ep)) st.ep.nTargetTimespan) := by
  have hF := epoch_fact_pos st.nHeight params
  have hd := epoch_divisor_ne_zero st.nHeight params hT hI
  rw [← hep] at hF hd
  unfold adjustedTarget
  rw [rawTimespan_ok _ _ _ _ hF]
  exact adjustTarget_ok _ _ _ hd

theorem adjustTarget_ne_assert (p : Nat) (a T : Int) :
    adjustTarget p a T ≠ .error .assertionFailed := by
  unfold adjustTarget
  dsimp only
  split
  · intro h
    cases h
  · intro h
    cases h

theorem cdiv_ne_assert (a b : Int) : cdiv a b ≠ .error .assertionFailed := by
  unfold cdiv
  split
  · intro h
    cases h
  · split
    · intro h
      cases h
    · intro h
      cases h

theorem rawTimespan_ne_assert (nHeight lastTime firstTime : Nat) (ep : Epoch) :
    rawTimespan nHeight lastTime firstTime ep ≠ .error .assertionFailed := by
  unfold rawTimespan
  split
  · exact cdiv_ne_assert _ _
  · intro h
    cases h

theorem retarget_ne_assert (cd : Codec) (params : Params) (st : Boundary) :
    retarget cd params st ≠ .error .assertionFailed := by
  unfold retarget
  split
  · intro h
    cases h
  · split
    · rename_i e he
      intro h
      simp only [Except.error.injEq] at h
      rw [h] at he
      unfold adjustedTarget at he
      split at he
      · rename_i e2 he2
        simp only [Except.error.injEq] at he
        rw [he] at he2
        exact rawTimespan_ne_assert _ _ _ _ he2
      · exact adjustTarget_ne_assert _ _ _ he
    · intro h
      cases h

theorem retarget_ok (cd : Codec) (params : Params) (st : Boundary)
    (hep : st.ep = epochOf st.nHeight params)
    (hT : st.nHeight < 25199 → IsInt64 params.nPowTargetTimespan)
    (hI : (epochOf st.nHeight params).nInterval ≠ 0) :
    ∃ v, retarget cd params st = .ok v := by
  unfold retarget
  split
  · exact ⟨_, rfl⟩
  · rw [adjustedTarget_ok cd params st hep hT hI]
    exact ⟨_, rfl⟩

/-- C6, as stated, fails: a call can fail in a third way.  For a tip below height 25199 the
quotient of line 18 is the interval: with a target timespan shorter than the target spacing
it is zero and the test of line 45 divides by zero, and with a target spacing of zero line 18
itself divides by zero. -/
theorem C6_division_by_zero :
    GetNextWorkRequired compactCodec (sampleChain 0x1d00ffff 1000 150 10) 0 shortTimespanParams
        = .error .divisionByZero
      ∧ GetNextWorkRequired compactCodec (sampleChain 0x1d00ffff 1000 150 10) 0
          zeroSpacingParams = .error .divisionByZero
      ∧ ¬ ((∃ v, GetNextWorkRequired compactCodec (sampleChain 0x1d00ffff 1000 150 10) 0
              shortTimespanParams = .ok v)
          ∨ GetNextWorkRequired compactCodec (sampleChain 0x1d00ffff 1000 150 10) 0
              shortTimespanParams = .error .assertionFailed) := by
  have h1 : GetNextWorkRequired compactCodec (sampleChain 0x1d00ffff 1000 150 10) 0
      shortTimespanParams = .error .divisionByZero := by decide
  refine ⟨h1, by decide, ?_⟩
  rw [h1]
  rintro (⟨v, hv⟩ | h)
  · cases hv
  · cases h

/-- C6, amended: the call has a precondition only for a non-null tip below height 25199:
the quotient `nPowTargetTimespan / nPowTargetSpacing` of two `int64_t` values must be
defined (the spacing not zero, and not `INT64_MIN / -1`) and not zero.  Under it, and
without any condition for a `NULL` tip or a tip from height 25199 on, the call either returns
a compact target or fails on the assertion after the look-back walk. -/
theorem C6_no_other_failure (cd : Codec) (pindexLast : BlockPtr) (blockTime : Nat)
    (params : Params)
    (hlow : ∀ h tm nb prev, pindexLast = .node h tm nb prev → h < 25199 →
      IsInt64 params.nPowTargetTimespan
        ∧ ∃ i, cdiv params.nPowTargetTimespan params.nPowTargetSpacing = .ok i ∧ i ≠ 0) :
    (∃ v, GetNextWorkRequired cd pindexLast blockTime params = .ok v)
      ∨ GetNextWorkRequired cd pindexLast blockTime params = .error .assertionFailed := by
  cases pindexLast with
  | null =>
    left
    refine ⟨cd.GetCompact params.powLimit, ?_⟩
    simp only [GetNextWorkRequired, lookBack]
  | node h tm nb prev =>
    have hE : bracketEpoch h params = .ok (epochOf h params)
        ∧ (epochOf h params).nInterval ≠ 0
        ∧ (h < 25199 → IsInt64 params.nPowTargetTimespan) := by
      by_cases hh : h < 25199
      · obtain ⟨hT, i, hi, hi0⟩ := hlow h tm nb prev rfl hh
        obtain ⟨e1, e2⟩ := bracketEpoch_low h params hh i hi
        exact ⟨e1, by rw [e2]; exact hi0, fun _ => hT⟩
      · exact ⟨bracketEpoch_high h params (by omega),
          epochOf_interval_high h params (by omega), fun hlt => absurd hlt hh⟩
    obtain ⟨hE, hI, hT⟩ := hE
    unfold GetNextWorkRequired
    rw [lookBack_node_eq cd h tm nb prev blockTime params _ hE hI]
    by_cases hb : Int.tmod ((h : Int) + 1) (epochOf h params).nInterval = 0
    · rw [if_neg (not_not.mpr hb)]
      cases hw : walkBack (blocksToGoBack h (epochOf h params)).toNat (.node h tm nb prev) with
      | null =>
        right
        rfl
      | node fh ft fb fp =>
        left
        exact retarget_ok cd params _ rfl hT hI
    · rw [if_pos hb]
      left
      by_cases hm : params.fPowAllowMinDifficultyBlocks = true
      · rw [if_pos hm]
        by_cases ht : (blockTime : Int) > lateThreshold tm (epochOf h params).nTargetSpacing
        · rw [if_pos ht]
          exact ⟨_, rfl⟩
        · rw [if_neg ht]
          exact ⟨_, rfl⟩
      · rw [if_neg hm]
        exact ⟨_, rfl⟩

/-- A tip of height 10 under the sample parameters, whose quotient is 2016; and a tip of
height 25247 under parameters whose target spacing is zero. -/
theorem C6_no_other_failure_witness :
    (IsInt64 sampleParams.nPowTargetTimespan
      ∧ cdiv sampleParams.nPowTargetTimespan sampleParams.nPowTargetSpacing = .ok 2016
      ∧ ((∃ v, GetNextWorkRequired compactCodec (sampleChain 0x1d00ffff 1000 150 10) 0
            sampleParams = .ok v)
        ∨ GetNextWorkRequired compactCodec (sampleChain 0x1d00ffff 1000 150 10) 0
            sampleParams = .error .assertionFailed))
    ∧ ((∃ v, GetNextWorkRequired compactCodec (sampleChain 0x1d00ffff 1000 150 25247) 0
          zeroSpacingParams = .ok v)
      ∨ GetNextWorkRequired compactCodec (sampleChain 0x1d00ffff 1000 150 25247) 0
          zeroSpacingParams = .error .assertionFailed) :=
  ⟨⟨by decide, by decide,
    C6_no_other_failure compactCodec
      (.node 10 (1000 + (9 + 1) * 150) 0x1d00ffff (sampleChain 0x1d00ffff 1000 150 9))
      0 sampleParams
      (by
        intro h tm nb prev heq _
        exact ⟨by decide, 2016, by decide, by decide⟩)⟩,
    C6_no_other_failure compactCodec
      (.node 25247 (1000 + (25246 + 1) * 150) 0x1d00ffff (sampleChain 0x1d00ffff 1000 150 25246))
      0 zeroSpacingParams
      (by
        intro h tm nb prev heq hlt
        cases heq
        exact absurd hlt (by decide))⟩

/-- C7: for a non-null tip on a boundary block (the interval `ep.nInterval` of the tip's
bracket is defined and not zero and divides `tip.height + 1`; the target timespan is an
`int64_t`), `GetNextWorkRequired` fails on the assertion exactly when the tip has fewer than
`blockstogoback` predecessors, and returns a target exactly when it has not; no target is
returned in the failing case, and `fPowNoRetargeting` plays no role in it. -/
theorem C7_exhaustion (cd : Codec) (nHeight nTime nBits : Nat) (pprev : BlockPtr)
    (blockTime : Nat) (params : Params) (ep : Epoch)
    (hE : bracketEpoch nHeight params = .ok ep)
    (hT : IsInt64 params.nPowTargetTimespan)
    (hI : ep.nInterval ≠ 0)
    (hb : Int.tmod ((nHeight : Int) + 1) ep.nInterval = 0) :
    (GetNextWorkRequired cd (.node nHeight nTime nBits pprev) blockTime params
        = .error .assertionFailed
      ↔ (chainLength pprev : Int) < blocksToGoBack nHeight ep)
    ∧ ((∃ v, GetNextWorkRequired cd (.node nHeight nTime nBits pprev) blockTime params = .ok v)
      ↔ ¬ (chainLength pprev : Int) < blocksToGoBack nHeight ep) := by
  have hep := bracketEpoch_eq_ok nHeight params ep hE
  have hlen : walkBack (blocksToGoBack nHeight ep).toNat
        (.node nHeight nTime nBits pprev) = .null
      ↔ (chainLength pprev : Int) < blocksToGoBack nHeight ep := by
    rw [walkBack_eq_null_iff]
    simp only [chainLength]
    omega
  unfold GetNextWorkRequired
  rw [lookBack_node_eq cd nHeight nTime nBits pprev blockTime params ep hE hI,
    if_neg (not_not.mpr hb)]
  cases hw : walkBack (blocksToGoBack nHeight ep).toNat
      (.node nHeight nTime nBits pprev) with
  | null =>
    have hlt := hlen.mp hw
    refine ⟨⟨fun _ => hlt, fun _ => rfl⟩, ⟨?_, fun hn => absurd hlt hn⟩⟩
    rintro ⟨v, hv⟩
    cases hv
  | node fh ft fb fp =>
    have hge : ¬ (chainLength pprev : Int) < blocksToGoBack nHeight ep := by
      intro hlt
      rw [hlen.mpr hlt] at hw
      cases hw
    refine ⟨⟨fun hr => absurd hr (retarget_ne_assert cd params _), fun hlt => absurd hlt hge⟩,
      ⟨fun _ => hge, fun _ => retarget_ok cd params _ hep (fun _ => hT) (by rw [← hep]; exact hI)⟩⟩

/-- A tip of height 25247 with 31 predecessors, retargeting switched off: the assertion
fires.  It fires as well for a tip of that height without predecessors under parameters
whose target spacing is zero, and the full chain of that height returns a target under
them. -/
theorem C7_exhaustion_witness :
    (bracketEpoch 25247 noRetargetParams = .ok (epochOf 25247 noRetargetParams)
      ∧ IsInt64 noRetargetParams.nPowTargetTimespan
      ∧ (epochOf 25247 noRetargetParams).nInterval ≠ 0
      ∧ Int.tmod ((25247 : Int) + 1) (epochOf 25247 noRetargetParams).nInterval = 0
      ∧ (chainLength (sampleChain 0x1d00ffff 1000 150 30) : Int)
          < blocksToGoBack 25247 (epochOf 25247 noRetargetParams)
      ∧ GetNextWorkRequired compactCodec
          (.node 25247 5000 0x1d00ffff (sampleChain 0x1d00ffff 1000 150 30)) 0 noRetargetParams
          = .error .assertionFailed)
    ∧ GetNextWorkRequired compactCodec (.node 25247 1000 0x1d00ffff .null) 0 zeroSpacingParams
        = .error .assertionFailed
    ∧ GetNextWorkRequired compactCodec (sampleChain 0x1d00ffff 1000 150 25247) 0
        zeroSpacingParams = .ok 0x1d00ffff :=
  ⟨⟨by decide, by decide, by decide, by decide, by decide,
    (C7_exhaustion compactCodec 25247 5000 0x1d00ffff (sampleChain 0x1d00ffff 1000 150 30) 0
      noRetargetParams (epochOf 25247 noRetargetParams) (by decide) (by decide) (by decide)
      (by decide)).1.mpr (by decide)⟩,
    (C7_exhaustion compactCodec 25247 1000 0x1d00ffff .null 0 zeroSpacingParams
      (epochOf 25247 zeroSpacingParams) (by decide) (by decide) (by decide)
      (by decide)).1.mpr (by decide),
    by decide⟩

/-- C8: for a non-null tip on a boundary block whose look-back walk succeeds (the call has
passed the assertion of line 77), if `fPowNoRetargeting` is set then `GetNextWorkRequired`
returns the tip's `nBits` itself, whatever the timestamps. -/
theorem C8_no_retargeting (cd : Codec) (nHeight nTime nBits : Nat) (pprev : BlockPtr)
    (blockTime : Nat) (params : Params) (st : Boundary)
    (hst : lookBack cd (.node nHeight nTime nBits pprev) blockTime params = .ok (.boundary st))
    (hno : params.fPowNoRetargeting = true) :
    GetNextWorkRequired cd (.node nHeight nTime nBits pprev) blockTime params = .ok nBits := by
  obtain ⟨_, _, _, _, _, hnb, _, _⟩ :=
    lookBack_boundary_inv cd nHeight nTime nBits pprev blockTime params st hst
  simp only [GetNextWorkRequired, hst, retarget, hno, if_true, hnb]

/-- A well-formed chain with tip height 25247 and retargeting switched off. -/
theorem C8_no_retargeting_witness :
    lookBack compactCodec (sampleChain 0x1d00ffff 1000 150 25247) 0 noRetargetParams
        = .ok (.boundary
            { nHeight := 25247, nTime := 1000 + 25247 * 150, nBits := 0x1d00ffff,
              ep := epochOf 25247 noRetargetParams, firstTime := 1000 + 25199 * 150 })
      ∧ noRetargetParams.fPowNoRetargeting = true
      ∧ GetNextWorkRequired compactCodec (sampleChain 0x1d00ffff 1000 150 25247) 0
          noRetargetParams = .ok 0x1d00ffff :=
  ⟨by decide, by decide,
    C8_no_retargeting compactCodec 25247 (1000 + (25246 + 1) * 150) 0x1d00ffff
      (sampleChain 0x1d00ffff 1000 150 25246) 0 noRetargetParams
      { nHeight := 25247, nTime := 1000 + 25247 * 150, nBits := 0x1d00ffff,
        ep := epochOf 25247 noRetargetParams, firstTime := 1000 + 25199 * 150 }
      (by decide) (by decide)⟩

theorem limitTarget_le (bnNew bnPowLimit : Nat) : limitTarget bnNew bnPowLimit ≤ bnPowLimit := by
  unfold limitTarget
  split <;> omega

/-- C9: whenever a call reaches the retarget arithmetic (boundary block, look-back walk
succeeded, `fPowNoRetargeting` off), the arithmetic yields an adjusted magnitude `bnNew`, the
call returns the compact encoding of `limitTarget bnNew powLimit`, and that magnitude is at
most `powLimit`: it is `powLimit` when `bnNew` exceeds `powLimit` and `bnNew` otherwise. -/
theorem C9_pow_limit_clamp (cd : Codec) (pindexLast : BlockPtr) (blockTime : Nat)
    (params : Params) (st : Boundary)
    (hst : lookBack cd pindexLast blockTime params = .ok (.boundary st))
    (hno : params.fPowNoRetargeting = false)
    (hT : IsInt64 params.nPowTargetTimespan) :
    ∃ bnNew, adjustedTarget cd st = .ok bnNew
      ∧ GetNextWorkRequired cd pindexLast blockTime params
          = .ok (cd.GetCompact (limitTarget bnNew params.powLimit))
      ∧ limitTarget bnNew params.powLimit ≤ params.powLimit
      ∧ (bnNew > params.powLimit → limitTarget bnNew params.powLimit = params.powLimit)
      ∧ (bnNew ≤ params.powLimit → limitTarget bnNew params.powLimit = bnNew) := by
  cases pindexLast with
  | null =>
    simp only [lookBack] at hst
    cases hst
  | node h tm nb prev =>
    obtain ⟨_, hI, _, hh, _, _, hep, _⟩ :=
      lookBack_boundary_inv cd h tm nb prev blockTime params st hst
    rw [← hh] at hI hep
    have hadj := adjustedTarget_ok cd params st hep (fun _ => hT) hI
    refine ⟨_, hadj, ?_, limitTarget_le _ _, ?_, ?_⟩
    · simp only [GetNextWorkRequired, hst, retarget, hno, hadj]
      rfl
    · intro hgt
      unfold limitTarget
      rw [if_pos hgt]
    · intro hle
      unfold limitTarget
      rw [if_neg (by omega)]

theorem adjust_nat_shift (p a T lo hi : Nat) (hT : 0 < T) (hloa : lo ≤ a) (hahi : a ≤ hi)
    (hwrap : p * hi < 2 ^ 256) :
    ((p / 2 * a) % 2 ^ 256 / T * 2) % 2 ^ 256 * T ≤ p * hi
      ∧ (p - 1) * lo < (((p / 2 * a) % 2 ^ 256 / T * 2) % 2 ^ 256 + 2) * T := by
  have hb1 : p / 2 * 2 ≤ p := Nat.div_mul_le_self p 2
  have hpa : p * a ≤ p * hi := Nat.mul_le_mul_left p hahi
  have h1 : p / 2 * a * 2 ≤ p * a := by
    calc p / 2 * a * 2 = p / 2 * 2 * a := by ring
      _ ≤ p * a := Nat.mul_le_mul_right a hb1
  have h2 : p / 2 * a < 2 ^ 256 := by omega
  rw [Nat.mod_eq_of_lt h2]
  have h3 : p / 2 * a / T * T ≤ p / 2 * a := Nat.div_mul_le_self _ _
  have h4 : p / 2 * a / T ≤ p / 2 * a := Nat.div_le_self _ _
  have h5 : p / 2 * a / T * 2 < 2 ^ 256 := by omega
  rw [Nat.mod_eq_of_lt h5]
  have h6 : p / 2 * a < T * (p / 2 * a / T + 1) := Nat.lt_mul_div_succ _ hT
  have h7 : p - 1 ≤ p / 2 * 2 := by omega
  have h8 : (p - 1) * lo ≤ p / 2 * 2 * a := Nat.mul_le_mul h7 hloa
  constructor
  · calc p / 2 * a / T * 2 * T = p / 2 * a / T * T * 2 := by ring
      _ ≤ p / 2 * a * 2 := Nat.mul_le_mul_right 2 h3
      _ ≤ p * hi := by omega
  · calc (p - 1) * lo ≤ p / 2 * 2 * a := h8
      _ = p / 2 * a * 2 := by ring
      _ < T * (p / 2 * a / T + 1) * 2 := by omega
      _ = (p / 2 * a / T * 2 + 2) * T := by ring

theorem adjust_nat_plain (p a T lo hi : Nat) (hT : 0 < T) (hloa : lo ≤ a) (hahi : a ≤ hi)
    (hwrap : p * hi < 2 ^ 256) :
    (p * a) % 2 ^ 256 / T * T ≤ p * hi
      ∧ (p - 1) * lo < ((p * a) % 2 ^ 256 / T + 2) * T := by
  have hpa : p * a ≤ p * hi := Nat.mul_le_mul_left p hahi
  have h2 : p * a < 2 ^ 256 := by omega
  rw [Nat.mod_eq_of_lt h2]
  have h3 : p * a / T * T ≤ p * a := Nat.div_mul_le_self _ _
  have h6 : p * a < T * (p * a / T + 1) := Nat.lt_mul_div_succ _ hT
  have h8 : (p - 1) * lo ≤ p * a := Nat.mul_le_mul (Nat.sub_le p 1) hloa
  constructor
  · omega
  · calc (p - 1) * lo ≤ p * a := h8
      _ < T * (p * a / T + 1) := h6
      _ ≤ (p * a / T + 2) * T := by
        have : T * (p * a / T + 1) = (p * a / T + 1) * T := Nat.mul_comm _ _
        rw [this]
        exact Nat.mul_le_mul_right T (by omega)

theorem adjustTargetValue_bounds (p : Nat) (a T lo hi : Int) (hT : 0 < T) (hT64 : T < 2 ^ 64)
    (hlo : 0 ≤ lo) (hloa : lo ≤ a) (hahi : a ≤ hi) (hhi : hi < 2 ^ 32)
    (hwrap : (p : Int) * hi < 2 ^ 256) :
    (adjustTargetValue p a T : Int) * T ≤ (p : Int) * hi
      ∧ ((p : Int) - 1) * lo < ((adjustTargetValue p a T : Int) + 2) * T := by
  have ha0 : 0 ≤ a := le_trans hlo hloa
  have hhi0 : 0 ≤ hi := le_trans ha0 hahi
  lift a to ℕ using ha0
  lift T to ℕ using hT.le
  lift lo to ℕ using hlo
  lift hi to ℕ using hhi0
  have hT' : 0 < T := by exact_mod_cast hT
  have hloa' : lo ≤ a := by exact_mod_cast hloa
  have hahi' : a ≤ hi := by exact_mod_cast hahi
  have hwrap' : p * hi < 2 ^ 256 := by exact_mod_cast hwrap
  have ea : ((a : Int) % 2 ^ 32).toNat = a := by omega
  have eT : ((T : Int) % 2 ^ 64).toNat = T := by omega
  have key : adjustTargetValue p a T * T ≤ p * hi
      ∧ (p - 1) * lo < (adjustTargetValue p a T + 2) * T := by
    unfold adjustTargetValue
    rw [ea, eT]
    split
    · exact adjust_nat_shift p a T lo hi hT' hloa' hahi' hwrap'
    · exact adjust_nat_plain p a T lo hi hT' hloa' hahi' hwrap'
  obtain ⟨k1, k2⟩ := key
  generalize adjustTargetValue p (a : Int) (T : Int) = v at k1 k2 ⊢
  constructor
  · exact_mod_cast k1
  · rcases Nat.eq_zero_or_pos p with hp | hp
    · subst hp
      have h2 : (0 : Int) < ((v : Int) + 2) * (T : Int) := Int.mul_pos (by omega) hT
      have h3 : (((0 : Nat) : Int) - 1) * (lo : Int) ≤ 0 := by simp
      omega
    · have hc : ((p - 1 : Nat) : Int) = (p : Int) - 1 := by omega
      rw [← hc]
      exact_mod_cast k2

theorem clampTimespan_quarter (h : Nat) (T a : Int)
    (hq : h < 25199 ∨ (h ≥ 60000 ∧ h < 64079)) (hT : 0 ≤ T) (hT4 : T * 4 < 2 ^ 63) :
    Int.tdiv T 4 ≤ clampTimespan h T a ∧ clampTimespan h T a ≤ T * 4 := by
  unfold clampTimespan
  rw [if_pos hq, wrap64_eq (T * 4) (by omega) hT4]
  have e : Int.tdiv T 4 = T / 4 := Int.tdiv_eq_ediv hT (by decide)
  rw [e]
  dsimp only
  split <;> split <;> omega

theorem clampTimespan_tight (h : Nat) (a : Int) (hh : 64079 ≤ h) :
    1636 ≤ clampTimespan h 1800 a ∧ clampTimespan h 1800 a ≤ 1980 := by
  unfold clampTimespan
  rw [if_neg (by omega), if_pos hh]
  have e1 : Int.tdiv (10 * 1800) 11 = 1636 := by decide
  have e2 : Int.tdiv (11 * 1800) 10 = 1980 := by decide
  rw [e1, e2]
  dsimp only
  split <;> split <;> omega

theorem clampTimespan_half (h : Nat) (T a : Int) (h1 : 25199 ≤ h) (h2 : h < 60000)
    (hT : 0 ≤ T) (hT8 : T * 8 < 2 ^ 63) :
    Int.tdiv T 2 ≤ clampTimespan h T a ∧ clampTimespan h T a ≤ T * 8 := by
  unfold clampTimespan
  rw [if_neg (by omega), if_neg (by omega), wrap64_eq (T * 8) (by omega) hT8]
  have e : Int.tdiv T 2 = T / 2 := Int.tdiv_eq_ediv hT (by decide)
  rw [e]
  dsimp only
  split <;> split <;> omega

theorem clampTimespan_quarter_narrow (h : Nat) (T a : Int)
    (hq : h < 25199 ∨ (h ≥ 60000 ∧ h < 64079)) (hT : IsInt64 T) :
    ((clampTimespan h T a) % 2 ^ 32).toNat ≤ 4 * (T % 2 ^ 64).toNat := by
  unfold IsInt64 at hT
  by_cases h1 : 0 ≤ T ∧ T < 2 ^ 30
  · obtain ⟨c1, c2⟩ := clampTimespan_quarter h T a hq h1.1 (by omega)
    have e : Int.tdiv T 4 = T / 4 := Int.tdiv_eq_ediv h1.1 (by decide)
    rw [e] at c1
    omega
  · omega

theorem adjustTargetValue_upper (p : Nat) (a T : Int) :
    adjustTargetValue p a T * (T % 2 ^ 64).toNat ≤ p * (a % 2 ^ 32).toNat := by
  unfold adjustTargetValue
  generalize (a % 2 ^ 32).toNat = an
  generalize (T % 2 ^ 64).toNat = d
  split
  · have h1 : (p / 2 * an % 2 ^ 256 / d * 2) % 2 ^ 256 ≤ p / 2 * an % 2 ^ 256 / d * 2 :=
      Nat.mod_le _ _
    have h2 : p / 2 * an % 2 ^ 256 / d * d ≤ p / 2 * an % 2 ^ 256 := Nat.div_mul_le_self _ _
    have h3 : p / 2 * an % 2 ^ 256 ≤ p / 2 * an := Nat.mod_le _ _
    have h4 : p / 2 * an * 2 ≤ p * an := by
      calc p / 2 * an * 2 = p / 2 * 2 * an := by ring
        _ ≤ p * an := Nat.mul_le_mul_right an (Nat.div_mul_le_self p 2)
    calc (p / 2 * an % 2 ^ 256 / d * 2) % 2 ^ 256 * d
        ≤ p / 2 * an % 2 ^ 256 / d * 2 * d := Nat.mul_le_mul_right d h1
      _ = p / 2 * an % 2 ^ 256 / d * d * 2 := by ring
      _ ≤ p / 2 * an % 2 ^ 256 * 2 := Nat.mul_le_mul_right 2 h2
      _ ≤ p / 2 * an * 2 := Nat.mul_le_mul_right 2 h3
      _ ≤ p * an := h4
  · calc p * an % 2 ^ 256 / d * d ≤ p * an % 2 ^ 256 := Nat.div_mul_le_self _ _
      _ ≤ p * an := Nat.mod_le _ _

theorem adjustTargetValue_le_ratio (p : Nat) (a T : Int) (k : Nat)
    (hd : (T % 2 ^ 64).toNat ≠ 0) (hk : (a % 2 ^ 32).toNat ≤ k * (T % 2 ^ 64).toNat) :
    adjustTargetValue p a T ≤ k * p := by
  have h1 := adjustTargetValue_upper p a T
  have h2 : p * (a % 2 ^ 32).toNat ≤ p * (k * (T % 2 ^ 64).toNat) := Nat.mul_le_mul_left p hk
  have h3 : adjustTargetValue p a T * (T % 2 ^ 64).toNat ≤ k * p * (T % 2 ^ 64).toNat := by
    calc adjustTargetValue p a T * (T % 2 ^ 64).toNat ≤ p * (a % 2 ^ 32).toNat := h1
      _ ≤ p * (k * (T % 2 ^ 64).toNat) := h2
      _ = k * p * (T % 2 ^ 64).toNat := by ring
  exact Nat.le_of_mul_le_mul_right h3 (Nat.pos_of_ne_zero hd)

/-- C10, amended: on a boundary retarget the adjusted target `adj`, before the `powLimit`
clamp, is at most `p` times the upper ratio of the bracket (4, 1.1 or 8), for every decoded
tip target `p`.  The lower bound holds only without 256-bit wrap (tip height at least 25199
and `p` below `2 ^ 240`, or tip height below 25199 with a positive target timespan `T`,
`4 * T < 2 ^ 32` and `p * 4 * T < 2 ^ 256`) and only up to the truncation of the integer
arithmetic: `(p - 1) * lo < (adj + 2) * T`, where `lo` is the integer lower clamp bound,
which is `T / 4` or `T / 2` truncated and, at heights from 64079 on, 1636 for `T = 1800`. -/
theorem C10_clamp_law (cd : Codec) (nHeight nTime nBits : Nat) (pprev : BlockPtr)
    (blockTime : Nat) (params : Params) (st : Boundary)
    (hst : lookBack cd (.node nHeight nTime nBits pprev) blockTime params = .ok (.boundary st))
    (hT : IsInt64 params.nPowTargetTimespan) :
    ∃ adj : Nat, adjustedTarget cd st = .ok adj
      ∧ ((nHeight < 25199 ∨ (60000 ≤ nHeight ∧ nHeight < 64079)) →
          adj ≤ 4 * (cd.SetCompact nBits).magnitude)
      ∧ (64079 ≤ nHeight → 10 * adj ≤ 11 * (cd.SetCompact nBits).magnitude)
      ∧ ((25199 ≤ nHeight ∧ nHeight < 60000) → adj ≤ 8 * (cd.SetCompact nBits).magnitude)
      ∧ ((nHeight < 25199 ∨ (60000 ≤ nHeight ∧ nHeight < 64079)) →
          (nHeight < 25199 → 0 < params.nPowTargetTimespan
            ∧ params.nPowTargetTimespan * 4 < 2 ^ 32
            ∧ ((cd.SetCompact nBits).magnitude : Int) * (params.nPowTargetTimespan * 4)
                < 2 ^ 256) →
          (25199 ≤ nHeight → (cd.SetCompact nBits).magnitude < 2 ^ 240) →
          (((cd.SetCompact nBits).magnitude : Int) - 1)
              * Int.tdiv (epochOf nHeight params).nTargetTimespan 4
            < ((adj : Int) + 2) * (epochOf nHeight params).nTargetTimespan)
      ∧ (64079 ≤ nHeight → (cd.SetCompact nBits).magnitude < 2 ^ 240 →
          (((cd.SetCompact nBits).magnitude : Int) - 1) * 1636 < ((adj : Int) + 2) * 1800)
      ∧ ((25199 ≤ nHeight ∧ nHeight < 60000) → (cd.SetCompact nBits).magnitude < 2 ^ 240 →
          (((cd.SetCompact nBits).magnitude : Int) - 1)
              * Int.tdiv (epochOf nHeight params).nTargetTimespan 2
            < ((adj : Int) + 2) * (epochOf nHeight params).nTargetTimespan) := by
  obtain ⟨_, hI, _, hh, htm, hnb, hep, _⟩ :=
    lookBack_boundary_inv cd nHeight nTime nBits pprev blockTime params st hst
  have hF := epoch_fact_pos nHeight params
  rw [← hep] at hF
  have hd : ((epochOf nHeight params).nTargetTimespan % 2 ^ 64).toNat ≠ 0 :=
    epoch_divisor_ne_zero nHeight params (fun _ => hT) hI
  have hT64 : IsInt64 (epochOf nHeight params).nTargetTimespan :=
    epoch_timespan_int64 nHeight params (fun _ => hT)
  have hadj : adjustedTarget cd st
      = .ok (adjustTargetValue (cd.SetCompact nBits).magnitude
          (clampTimespan nHeight (epochOf nHeight params).nTargetTimespan
            (rawTimespanValue nHeight nTime st.firstTime (epochOf nHeight params)))
          (epochOf nHeight params).nTargetTimespan) := by
    unfold adjustedTarget
    rw [rawTimespan_ok _ _ _ _ hF, hh, htm, hnb, hep]
    exact adjustTarget_ok _ _ _ hd
  refine ⟨_, hadj, ?_, ?_, ?_, ?_, ?_, ?_⟩
  · intro hq
    have hq' : nHeight < 25199 ∨ (nHeight ≥ 60000 ∧ nHeight < 64079) := by omega
    exact adjustTargetValue_le_ratio _ _ _ 4 hd
      (clampTimespan_quarter_narrow nHeight _ _ hq' hT64)
  · intro hq
    have eT : (epochOf nHeight params).nTargetTimespan = 1800 := by
      rw [epochOf_late nHeight params (by omega)]
    rw [eT]
    generalize rawTimespanValue nHeight nTime st.firstTime (epochOf nHeight params) = raw
    obtain ⟨c1, c2⟩ := clampTimespan_tight nHeight raw hq
    have h1 := adjustTargetValue_upper (cd.SetCompact nBits).magnitude
      (clampTimespan nHeight 1800 raw) 1800
    have e : ((1800 : Int) % 2 ^ 64).toNat = 1800 := by decide
    rw [e] at h1
    have h2 : (clampTimespan nHeight 1800 raw % 2 ^ 32).toNat ≤ 1980 := by omega
    have h3 := Nat.mul_le_mul_left (cd.SetCompact nBits).magnitude h2
    omega
  · intro hq
    have eT : (epochOf nHeight params).nTargetTimespan = 7200 := by
      rw [epochOf_middle nHeight params hq.1 (by omega)]
    rw [eT] at hd ⊢
    generalize rawTimespanValue nHeight nTime st.firstTime (epochOf nHeight params) = raw
    obtain ⟨c1, c2⟩ := clampTimespan_half nHeight 7200 raw hq.1 hq.2 (by decide) (by decide)
    have e2 : Int.tdiv 7200 2 = 3600 := by decide
    rw [e2] at c1
    exact adjustTargetValue_le_ratio _ _ _ 8 hd (by omega)
  · intro hq hlow hhigh
    have hq' : nHeight < 25199 ∨ (nHeight ≥ 60000 ∧ nHeight < 64079) := by omega
    generalize rawTimespanValue nHeight nTime st.firstTime (epochOf nHeight params) = raw
    have hfit : 0 < (epochOf nHeight params).nTargetTimespan
        ∧ (epochOf nHeight params).nTargetTimespan * 4 < 2 ^ 32
        ∧ ((cd.SetCompact nBits).magnitude : Int)
            * ((epochOf nHeight params).nTargetTimespan * 4) < 2 ^ 256 := by
      by_cases h1 : nHeight < 25199
      · rw [epochOf_early nHeight params h1]
        exact hlow h1
      · have hp := hhigh (by omega)
        by_cases h2 : nHeight < 64007
        · rw [epochOf_middle nHeight params (by omega) h2]
          dsimp only
          omega
        · rw [epochOf_late nHeight params (by omega)]
          dsimp only
          omega
    obtain ⟨hTpos, hfit1, hfit2⟩ := hfit
    obtain ⟨c1, c2⟩ := clampTimespan_quarter nHeight
      (epochOf nHeight params).nTargetTimespan raw hq' hTpos.le (by omega)
    have hlo0 : 0 ≤ Int.tdiv (epochOf nHeight params).nTargetTimespan 4 := by
      rw [Int.tdiv_eq_ediv hTpos.le (by decide)]
      omega
    exact (adjustTargetValue_bounds (cd.SetCompact nBits).magnitude _
      (epochOf nHeight params).nTargetTimespan _ _ hTpos (by omega) hlo0 c1 c2 hfit1 hfit2).2
  · intro hq hp
    generalize rawTimespanValue nHeight nTime st.firstTime (epochOf nHeight params) = raw
    have eT : (epochOf nHeight params).nTargetTimespan = 1800 := by
      rw [epochOf_late nHeight params (by omega)]
    rw [eT]
    obtain ⟨c1, c2⟩ := clampTimespan_tight nHeight raw hq
    exact (adjustTargetValue_bounds (cd.SetCompact nBits).magnitude _
      1800 1636 1980 (by decide) (by decide) (by decide) c1 c2 (by decide) (by omega)).2
  · intro hq hp
    generalize rawTimespanValue nHeight nTime st.firstTime (epochOf nHeight params) = raw
    have eT : (epochOf nHeight params).nTargetTimespan = 7200 := by
      rw [epochOf_middle nHeight params hq.1 (by omega)]
    rw [eT]
    obtain ⟨c1, c2⟩ := clampTimespan_half nHeight 7200 raw hq.1 hq.2 (by decide) (by decide)
    have e2 : Int.tdiv 7200 2 = 3600 := by decide
    rw [e2] at c1 ⊢
    exact (adjustTargetValue_bounds (cd.SetCompact nBits).magnitude _
      7200 3600 (7200 * 8) (by decide) (by decide) (by decide) c1 c2 (by decide) (by omega)).2

/-- A well-formed chain with tip height 25247 and one block every 150 seconds. -/
theorem C9_pow_limit_clamp_witness :
    lookBack compactCodec (sampleChain 0x1d00ffff 1000 150 25247) 0 sampleParams
        = .ok (.boundary (sampleBoundary 0x1d00ffff 150 25247 48 sampleParams))
      ∧ sampleParams.fPowNoRetargeting = false
      ∧ IsInt64 sampleParams.nPowTargetTimespan
      ∧ ∃ bnNew, adjustedTarget compactCodec (sampleBoundary 0x1d00ffff 150 25247 48 sampleParams)
            = .ok bnNew
          ∧ GetNextWorkRequired compactCodec (sampleChain 0x1d00ffff 1000 150 25247) 0 sampleParams
              = .ok (compactCodec.GetCompact (limitTarget bnNew sampleParams.powLimit))
          ∧ limitTarget bnNew sampleParams.powLimit ≤ sampleParams.powLimit
          ∧ (bnNew > sampleParams.powLimit
              → limitTarget bnNew sampleParams.powLimit = sampleParams.powLimit)
          ∧ (bnNew ≤ sampleParams.powLimit → limitTarget bnNew sampleParams.powLimit = bnNew) :=
  ⟨by decide, by decide, by decide,
    C9_pow_limit_clamp compactCodec (sampleChain 0x1d00ffff 1000 150 25247) 0 sampleParams
      (sampleBoundary 0x1d00ffff 150 25247 48 sampleParams) (by decide) (by decide) (by decide)⟩

/-- C10, as stated, fails.  At tip height 64079 with blocks 100 seconds apart the timespan is
clamped to 1636, below 1800/1.1, and the adjusted target is below `priorTarget / 1.1`.  At
tip height 25247 with the widest target and blocks 2000 seconds apart the product wraps at
256 bits and the adjusted target is below `priorTarget / 2`.  At tip height 60047 with prior
target 1 the division truncates to 0, below `priorTarget / 4`. -/
theorem C10_outside_band :
    (lookBack compactCodec (sampleChain 0x1d00ffff 1000 100 64079) 0 sampleParams
        = .ok (.boundary (sampleBoundary 0x1d00ffff 100 64079 12 sampleParams))
      ∧ adjustedTarget compactCodec (sampleBoundary 0x1d00ffff 100 64079 12 sampleParams)
        = .ok 24503222075608056850446664055538027680952127964615184691622998214792
      ∧ 11 * 24503222075608056850446664055538027680952127964615184691622998214792
        < 10 * (compactCodec.SetCompact 0x1d00ffff).magnitude)
    ∧ (lookBack compactCodec (sampleChain 0x207fffff 1000 2000 25247) 0 wideParams
        = .ok (.boundary (sampleBoundary 0x207fffff 2000 25247 48 wideParams))
      ∧ adjustedTarget compactCodec (sampleBoundary 0x207fffff 2000 25247 48 wideParams)
        = .ok 32109255261813507551803573344403980422288720202011682474074695363963252754
      ∧ 2 * 32109255261813507551803573344403980422288720202011682474074695363963252754
        < (compactCodec.SetCompact 0x207fffff).magnitude)
    ∧ (lookBack compactCodec (sampleChain 0x03000001 1000 10 60047) 0 sampleParams
        = .ok (.boundary (sampleBoundary 0x03000001 10 60047 48 sampleParams))
      ∧ adjustedTarget compactCodec (sampleBoundary 0x03000001 10 60047 48 sampleParams) = .ok 0
      ∧ 4 * 0 < (compactCodec.SetCompact 0x03000001).magnitude) := by
  refine ⟨⟨by decide, by decide, by decide⟩, ⟨by decide, by decide, by decide⟩,
    ⟨by decide, by decide, by decide⟩⟩

/-- Tip height 64079 with blocks 100 seconds apart. -/
theorem C10_clamp_law_witness :
    lookBack compactCodec (sampleChain 0x1d00ffff 1000 100 64079) 0 sampleParams
        = .ok (.boundary (sampleBoundary 0x1d00ffff 100 64079 12 sampleParams))
      ∧ IsInt64 sampleParams.nPowTargetTimespan
      ∧ (compactCodec.SetCompact 0x1d00ffff).magnitude < 2 ^ 240
      ∧ ∃ adj : Nat, adjustedTarget compactCodec (sampleBoundary 0x1d00ffff 100 64079 12 sampleParams)
            = .ok adj
          ∧ 10 * adj ≤ 11 * (compactCodec.SetCompact 0x1d00ffff).magnitude
          ∧ (((compactCodec.SetCompact 0x1d00ffff).magnitude : Int) - 1) * 1636
              < ((adj : Int) + 2) * 1800 := by
  refine ⟨by decide, by decide, by decide, ?_⟩
  obtain ⟨adj, h1, _, h2, _, _, h3, _⟩ :=
    C10_clamp_law compactCodec 64079 (1000 + (64078 + 1) * 100) 0x1d00ffff
      (sampleChain 0x1d00ffff 1000 100 64078) 0 sampleParams
      (sampleBoundary 0x1d00ffff 100 64079 12 sampleParams) (by decide) (by decide)
  exact ⟨adj, h1, h2 (by decide), h3 (by decide) (by decide)⟩

theorem tmod_natCast_eq_zero_iff (n k : Nat) :
    Int.tmod ((n : Int) + 1) (k : Int) = 0 ↔ (n + 1) % k = 0 := by
  rw [Int.tmod_eq_emod (by omega) (by omega)]
  exact_mod_cast Iff.rfl

theorem retargetAttempted_iff (cd : Codec) (h tm nb : Nat) (prev : BlockPtr) (t : Nat)
    (params : Params) (ep : Epoch) (hE : bracketEpoch h params = .ok ep)
    (hI : ep.nInterval ≠ 0) :
    retargetAttempted (lookBack cd (.node h tm nb prev) t params) = true
      ↔ Int.tmod ((h : Int) + 1) ep.nInterval = 0 := by
  rw [lookBack_node_eq cd h tm nb prev t params ep hE hI]
  by_cases hb : Int.tmod ((h : Int) + 1) ep.nInterval = 0
  · rw [if_neg (not_not.mpr hb)]
    cases walkBack (blocksToGoBack h ep).toNat (.node h tm nb prev) with
    | null => simp [retargetAttempted, hb]
    | node fh ft fb fp => simp [retargetAttempted, hb]
  · rw [if_pos hb]
    by_cases hm : params.fPowAllowMinDifficultyBlocks = true
    · rw [if_pos hm]
      by_cases ht : (t : Int) > lateThreshold tm ep.nTargetSpacing
      · rw [if_pos ht]
        simp [retargetAttempted, hb]
      · rw [if_neg ht]
        simp [retargetAttempted, hb]
    · rw [if_neg hm]
      simp [retargetAttempted, hb]

/-- C11: for a tip of height `h` the timespan, spacing, interval and history factor used by
`GetNextWorkRequired` are the parameters' own, with `interval = timespan / spacing` (the
truncating integer division, where that quotient of two `int64_t` values is defined) and
factor 12, when `h < 25199`; (7200, 150, 48, 12) from 25199 to 64006; (1800, 150, 12, 48)
from 64007 to 68998; and (1800, 150, 12, 4) from 68999 on.  A retarget is attempted exactly
when `h + 1` is a multiple of 48 in the second bracket and of 12 in the last two. -/
theorem C11_epoch_table (nHeight : Nat) (params : Params) :
    (nHeight < 25199 → params.nPowTargetSpacing ≠ 0 →
        ¬ (params.nPowTargetTimespan = -2 ^ 63 ∧ params.nPowTargetSpacing = -1) →
        bracketEpoch nHeight params = .ok
          { nTargetTimespan := params.nPowTargetTimespan
            nTargetSpacing := params.nPowTargetSpacing
            nInterval := Int.tdiv params.nPowTargetTimespan params.nPowTargetSpacing
            nReTargetHistoryFact := 12 })
      ∧ (25199 ≤ nHeight ∧ nHeight ≤ 64006 → bracketEpoch nHeight params = .ok
          { nTargetTimespan := 7200, nTargetSpacing := 150, nInterval := 48,
            nReTargetHistoryFact := 12 })
      ∧ (64007 ≤ nHeight ∧ nHeight ≤ 68998 → bracketEpoch nHeight params = .ok
          { nTargetTimespan := 1800, nTargetSpacing := 150, nInterval := 12,
            nReTargetHistoryFact := 48 })
      ∧ (68999 ≤ nHeight → bracketEpoch nHeight params = .ok
          { nTargetTimespan := 1800, nTargetSpacing := 150, nInterval := 12,
            nReTargetHistoryFact := 4 })
      ∧ ∀ (cd : Codec) (nTime nBits : Nat) (pprev : BlockPtr) (blockTime : Nat),
          (25199 ≤ nHeight ∧ nHeight ≤ 64006 →
            (retargetAttempted (lookBack cd (.node nHeight nTime nBits pprev) blockTime params)
                = true ↔ (nHeight + 1) % 48 = 0))
          ∧ (64007 ≤ nHeight →
            (retargetAttempted (lookBack cd (.node nHeight nTime nBits pprev) blockTime params)
                = true ↔ (nHeight + 1) % 12 = 0)) := by
  refine ⟨?_, ?_, ?_, ?_, ?_⟩
  · intro h hS ho
    rw [(bracketEpoch_low nHeight params h _ (cdiv_ok _ _ hS ho)).1,
      epochOf_early nHeight params h]
  · intro h
    rw [bracketEpoch_high nHeight params h.1, epochOf_middle nHeight params h.1 (by omega)]
  · intro h
    rw [bracketEpoch_high nHeight params (by omega), epochOf_late nHeight params h.1,
      if_pos (by omega)]
  · intro h
    rw [bracketEpoch_high nHeight params (by omega), epochOf_late nHeight params (by omega),
      if_neg (by omega)]
  · intro cd nTime nBits pprev blockTime
    constructor
    · intro h
      have e := epochOf_middle nHeight params h.1 (by omega)
      rw [retargetAttempted_iff cd nHeight nTime nBits pprev blockTime params _
        (bracketEpoch_high nHeight params h.1) (epochOf_interval_high nHeight params h.1), e]
      exact tmod_natCast_eq_zero_iff nHeight 48
    · intro h
      have e := epochOf_late nHeight params h
      rw [retargetAttempted_iff cd nHeight nTime nBits pprev blockTime params _
        (bracketEpoch_high nHeight params (by omega))
        (epochOf_interval_high nHeight params (by omega)), e]
      exact tmod_natCast_eq_zero_iff nHeight 12

/-- The sample parameters at tip height 10: the first bracket with the interval
302400 / 150 = 2016.  Parameters whose target spacing is zero at tip height 25247: the
second bracket, and a retarget is attempted because 25248 is a multiple of 48. -/
theorem C11_epoch_table_witness :
    bracketEpoch 10 sampleParams = .ok
        { nTargetTimespan := 302400, nTargetSpacing := 150, nInterval := 2016,
          nReTargetHistoryFact := 12 }
      ∧ bracketEpoch 25247 zeroSpacingParams = .ok
          { nTargetTimespan := 7200, nTargetSpacing := 150, nInterval := 48,
            nReTargetHistoryFact := 12 }
      ∧ (retargetAttempted
            (lookBack compactCodec (sampleChain 0x1d00ffff 1000 150 25247) 0 zeroSpacingParams)
            = true
          ↔ (25247 + 1) % 48 = 0) :=
  ⟨(C11_epoch_table 10 sampleParams).1 (by decide) (by decide) (by decide),
    (C11_epoch_table 25247 zeroSpacingParams).2.1 (by decide),
    ((C11_epoch_table 25247 zeroSpacingParams).2.2.2.2 compactCodec
      (1000 + (25246 + 1) * 150) 0x1d00ffff (sampleChain 0x1d00ffff 1000 150 25246) 0).1
      (by decide)⟩

theorem minDifficultyWalk_spec (nInterval : Int) (limit : Nat) (prev : BlockPtr) :
    ∀ (h tm nb : Nat), ∃ (k hk tk bk : Nat) (pk : BlockPtr),
      walkBack k (.node h tm nb prev) = .node hk tk bk pk
        ∧ stopsWalk nInterval limit (.node hk tk bk pk)
        ∧ (∀ j, j < k → ¬ stopsWalk nInterval limit (walkBack j (.node h tm nb prev)))
        ∧ minDifficultyWalk nInterval limit (.node h tm nb prev) = bk := by
  induction prev with
  | null =>
    intro h tm nb
    refine ⟨0, h, tm, nb, .null, rfl, Or.inl rfl, ?_, rfl⟩
    intro j hj
    omega
  | node h1 t1 b1 p1 ih =>
    intro h tm nb
    by_cases hc : Int.tmod (h : Int) nInterval ≠ 0 ∧ nb = limit
    · obtain ⟨k, hk, tk, bk, pk, e1, e2, e3, e4⟩ := ih h1 t1 b1
      refine ⟨k + 1, hk, tk, bk, pk, e1, e2, ?_, ?_⟩
      · intro j hj
        cases j with
        | zero =>
          intro hs
          rcases hs with hs | hs | hs
          · cases hs
          · exact hc.1 hs
          · exact hs hc.2
        | succ i => exact e3 i (by omega)
      · simp only [minDifficultyWalk]
        rw [if_pos hc]
        exact e4
    · refine ⟨0, h, tm, nb, .node h1 t1 b1 p1, rfl, ?_, ?_, ?_⟩
      · by_cases h0 : Int.tmod (h : Int) nInterval = 0
        · exact Or.inr (Or.inl h0)
        · exact Or.inr (Or.inr (fun hb => hc ⟨h0, hb⟩))
      · intro j hj
        omega
      · simp only [minDifficultyWalk]
        rw [if_neg hc]

/-- C12, as stated, fails: the sum `tip.timestamp + 2 * spacing` of line 52 is an `int64_t`
sum.  Under parameters with the spacing `2 ^ 62 - 1` (interval 2) and the min-difficulty
switch on, a tip of height 10 and time 2500 and a candidate of time 2501: 11 is not a
multiple of 2, the candidate's time is not above `2500 + 2 * spacing`, and the first node
that ends the walk is the tip itself (10 is a multiple of 2) with the stored target
`0x1d00ffff`; yet the sum wraps to a negative number and the call returns the compact
`powLimit`, `0x1e0fffff`. -/
theorem C12_late_test_wraps :
    hugeSpacingParams.fPowAllowMinDifficultyBlocks = true
      ∧ IsInt64 hugeSpacingParams.nPowTargetTimespan
      ∧ IsInt64 hugeSpacingParams.nPowTargetSpacing
      ∧ bracketEpoch 10 hugeSpacingParams = .ok
          { nTargetTimespan := 2 ^ 63 - 1, nTargetSpacing := 2 ^ 62 - 1, nInterval := 2,
            nReTargetHistoryFact := 12 }
      ∧ Int.tmod ((10 : Int) + 1) 2 ≠ 0
      ∧ sampleChain 0x1d00ffff 1000 150 10
          = .node 10 2500 0x1d00ffff (sampleChain 0x1d00ffff 1000 150 9)
      ∧ ¬ ((2501 : Int) > 2500 + 2 * (2 ^ 62 - 1))
      ∧ Int.tmod (10 : Int) 2 = 0
      ∧ lateThreshold 2500 (2 ^ 62 - 1) = -2 ^ 63 + 2498
      ∧ GetNextWorkRequired compactCodec (sampleChain 0x1d00ffff 1000 150 10) 2501
          hugeSpacingParams = .ok 0x1e0fffff
      ∧ compactCodec.GetCompact hugeSpacingParams.powLimit = 0x1e0fffff
      ∧ GetNextWorkRequired compactCodec (sampleChain 0x1d00ffff 1000 150 10) 2501
          hugeSpacingParams ≠ .ok 0x1d00ffff := by
  decide

/-- C12, amended: for a non-null tip with `(h + 1) mod interval` not zero and the
min-difficulty switch on, `GetNextWorkRequired` returns the compact `powLimit` when the
candidate's time is above the `int64_t` sum `tip.timestamp + 2 * spacing` of line 52, which
is the exact sum whenever the product and the sum stay in the `int64_t` range; otherwise it
returns the stored target of the first node, from the tip along the predecessor links, that
has no predecessor, or whose height is a multiple of the interval, or whose stored target
differs from the compact `powLimit`.  That node is on the chain: the walk never steps past
genesis. -/
theorem C12_min_difficulty (cd : Codec) (nHeight nTime nBits : Nat) (pprev : BlockPtr)
    (blockTime : Nat) (params : Params) (ep : Epoch)
    (hmin : params.fPowAllowMinDifficultyBlocks = true)
    (hE : bracketEpoch nHeight params = .ok ep)
    (hI : ep.nInterval ≠ 0)
    (hnb : Int.tmod ((nHeight : Int) + 1) ep.nInterval ≠ 0) :
    ((blockTime : Int) > lateThreshold nTime ep.nTargetSpacing →
        GetNextWorkRequired cd (.node nHeight nTime nBits pprev) blockTime params
          = .ok (cd.GetCompact params.powLimit))
      ∧ (¬ (blockTime : Int) > lateThreshold nTime ep.nTargetSpacing →
        ∃ (k hk tk bk : Nat) (pk : BlockPtr),
          walkBack k (.node nHeight nTime nBits pprev) = .node hk tk bk pk
            ∧ stopsWalk ep.nInterval (cd.GetCompact params.powLimit) (.node hk tk bk pk)
            ∧ (∀ j, j < k →
                ¬ stopsWalk ep.nInterval (cd.GetCompact params.powLimit)
                  (walkBack j (.node nHeight nTime nBits pprev)))
            ∧ GetNextWorkRequired cd (.node nHeight nTime nBits pprev) blockTime params
                = .ok bk)
      ∧ (IsInt64 (ep.nTargetSpacing * 2) → IsInt64 ((nTime : Int) + ep.nTargetSpacing * 2) →
        lateThreshold nTime ep.nTargetSpacing = (nTime : Int) + ep.nTargetSpacing * 2)
      ∧ (25199 ≤ nHeight → nTime < 2 ^ 32 →
        lateThreshold nTime ep.nTargetSpacing = (nTime : Int) + 2 * 150) := by
  refine ⟨?_, ?_, ?_, ?_⟩
  · intro ht
    unfold GetNextWorkRequired
    rw [lookBack_node_eq cd nHeight nTime nBits pprev blockTime params ep hE hI, if_pos hnb,
      hmin]
    simp only [if_true, if_pos ht]
  · intro ht
    unfold GetNextWorkRequired
    rw [lookBack_node_eq cd nHeight nTime nBits pprev blockTime params ep hE hI, if_pos hnb,
      hmin]
    obtain ⟨k, hk, tk, bk, pk, e1, e2, e3, e4⟩ :=
      minDifficultyWalk_spec ep.nInterval (cd.GetCompact params.powLimit)
        pprev nHeight nTime nBits
    refine ⟨k, hk, tk, bk, pk, e1, e2, e3, ?_⟩
    simp only [if_true, if_neg ht, e4]
  · intro h1 h2
    unfold IsInt64 at h1 h2
    unfold lateThreshold
    rw [wrap64_eq _ h1.1 h1.2, wrap64_eq _ h2.1 h2.2]
  · intro hh hlt
    have hep := bracketEpoch_eq_ok nHeight params ep hE
    have hS : ep.nTargetSpacing = 150 := by
      rw [hep]
      by_cases h2 : nHeight < 64007
      · rw [epochOf_middle nHeight params hh h2]
      · rw [epochOf_late nHeight params (by omega)]
    rw [hS]
    unfold lateThreshold
    rw [wrap64_eq (150 * 2) (by decide) (by decide), wrap64_eq _ (by omega) (by omega)]
    ring

/-- A test-network chain of tip height 25201 whose blocks all carry the compact
`powLimit`: a late candidate gets the compact `powLimit`. -/
theorem C12_min_difficulty_witness :
    minDifficultyParams.fPowAllowMinDifficultyBlocks = true
      ∧ bracketEpoch 25201 minDifficultyParams = .ok (epochOf 25201 minDifficultyParams)
      ∧ (epochOf 25201 minDifficultyParams).nInterval ≠ 0
      ∧ Int.tmod ((25201 : Int) + 1) (epochOf 25201 minDifficultyParams).nInterval ≠ 0
      ∧ ((1000 + 25201 * 150 + 301 : Nat) : Int)
          > lateThreshold (1000 + (25200 + 1) * 150)
              (epochOf 25201 minDifficultyParams).nTargetSpacing
      ∧ GetNextWorkRequired compactCodec (sampleChain 0x1e0fffff 1000 150 25201)
          (1000 + 25201 * 150 + 301) minDifficultyParams
          = .ok (compactCodec.GetCompact minDifficultyParams.powLimit) :=
  ⟨by decide, by decide, by decide, by decide, by decide,
    (C12_min_difficulty compactCodec 25201 (1000 + (25200 + 1) * 150) 0x1e0fffff
      (sampleChain 0x1e0fffff 1000 150 25200) (1000 + 25201 * 150 + 301) minDifficultyParams
      (epochOf 25201 minDifficultyParams)
      (by decide) (by decide) (by decide) (by decide)).1 (by decide)⟩

/-- C13, as stated, fails: on the boundary at tip height 25247 (interval 48, not the first
retarget) the look-back distance is 48, not 47; and at tip height 2015 under the sample
parameters (interval 2016, the first retarget) it is 2015, not 2016. -/
theorem C13_back_inverted :
    ((25247 : Int) + 1 ≠ (epochOf 25247 sampleParams).nInterval
        ∧ blocksToGoBack 25247 (epochOf 25247 sampleParams) = 48
        ∧ blocksToGoBack 25247 (epochOf 25247 sampleParams)
            ≠ (epochOf 25247 sampleParams).nInterval - 1)
      ∧ ((2015 : Int) + 1 = (epochOf 2015 sampleParams).nInterval
        ∧ blocksToGoBack 2015 (epochOf 2015 sampleParams) = 2015
        ∧ blocksToGoBack 2015 (epochOf 2015 sampleParams)
            ≠ (epochOf 2015 sampleParams).nInterval) := by
  decide

/-- C13, amended: for a tip height outside [62400, 64000) and below 64595 the look-back
distance is the interval, unless `tip.height + 1` equals the interval (the first retarget),
in which case it is the interval minus one. -/
theorem C13_default_back (nHeight : Nat) (ep : Epoch)
    (hout : ¬ (62400 ≤ nHeight ∧ nHeight < 64000)) (hlt : nHeight < 64595) :
    ((nHeight : Int) + 1 ≠ ep.nInterval → blocksToGoBack nHeight ep = ep.nInterval)
      ∧ ((nHeight : Int) + 1 = ep.nInterval → blocksToGoBack nHeight ep = ep.nInterval - 1) := by
  unfold blocksToGoBack
  have hc : ¬ ((nHeight ≥ 62400 ∧ nHeight < 64000) ∨ nHeight ≥ 64595) := by omega
  simp only [if_neg hc]
  constructor
  · intro hne
    rw [if_pos hne]
  · intro heq
    rw [if_neg (not_not.mpr heq)]

/-- Tip height 25247 under the sample parameters: the distance is the interval, 48. -/
theorem C13_default_back_witness :
    ¬ (62400 ≤ 25247 ∧ 25247 < 64000) ∧ 25247 < 64595
      ∧ ((25247 : Nat) : Int) + 1 ≠ (epochOf 25247 sampleParams).nInterval
      ∧ blocksToGoBack 25247 (epochOf 25247 sampleParams)
          = (epochOf 25247 sampleParams).nInterval :=
  ⟨by decide, by decide, by decide,
    (C13_default_back 25247 (epochOf 25247 sampleParams) (by decide) (by decide)).1
      (by decide)⟩

/-- C18, as stated, fails: 64007 leaves the remainder 23 on division by 48, so the candidate
after a tip of height 64006 is not a boundary block; the call returns the tip's target
through the non-boundary branch and attempts no retarget.  (On a boundary of that bracket
the look-back distance would be 48, not 47.) -/
theorem C18_not_a_boundary :
    (epochOf 64006 sampleParams).nInterval = 48
      ∧ Int.tmod ((64006 : Int) + 1) 48 = 23
      ∧ lookBack compactCodec (sampleChain 0x1d00ffff 1000 150 64006) 0 sampleParams
          = .ok (.returned 0x1d00ffff)
      ∧ retargetAttempted
          (lookBack compactCodec (sampleChain 0x1d00ffff 1000 150 64006) 0 sampleParams) = false
      ∧ GetNextWorkRequired compactCodec (sampleChain 0x1d00ffff 1000 150 64006) 0 sampleParams
          = .ok 0x1d00ffff
      ∧ blocksToGoBack 64006 (epochOf 64006 sampleParams) = 48 := by
  decide

/-- C18, amended: for a tip of height 64006 the retarget interval is 48 and the candidate
block is not a boundary block, `(64006 + 1) mod 48 = 23`; so `GetNextWorkRequired` attempts
no retarget and returns through the non-boundary branch, with the tip's own target when the
min-difficulty switch is off. -/
theorem C18_height_64006 (cd : Codec) (nTime nBits : Nat) (pprev : BlockPtr)
    (blockTime : Nat) (params : Params) :
    (epochOf 64006 params).nInterval = 48
      ∧ Int.tmod ((64006 : Int) + 1) (epochOf 64006 params).nInterval = 23
      ∧ retargetAttempted (lookBack cd (.node 64006 nTime nBits pprev) blockTime params) = false
      ∧ (∃ v, lookBack cd (.node 64006 nTime nBits pprev) blockTime params = .ok (.returned v))
      ∧ (params.fPowAllowMinDifficultyBlocks = false →
          GetNextWorkRequired cd (.node 64006 nTime nBits pprev) blockTime params = .ok nBits) := by
  have e := epochOf_middle 64006 params (by decide) (by decide)
  have hE := bracketEpoch_high 64006 params (by decide)
  have hI : (epochOf 64006 params).nInterval ≠ 0 := by
    rw [e]
    decide
  have hnb : Int.tmod (((64006 : Nat) : Int) + 1) (epochOf 64006 params).nInterval ≠ 0 := by
    rw [e]
    decide
  have hatt : retargetAttempted (lookBack cd (.node 64006 nTime nBits pprev) blockTime params)
      = false := by
    cases hr : retargetAttempted (lookBack cd (.node 64006 nTime nBits pprev) blockTime params)
    · rfl
    · exact absurd ((retargetAttempted_iff cd 64006 nTime nBits pprev blockTime params _ hE
        hI).mp hr) hnb
  refine ⟨by rw [e], by rw [e]; decide, hatt, ?_, ?_⟩
  · rw [lookBack_node_eq cd 64006 nTime nBits pprev blockTime params _ hE hI, if_pos hnb]
    by_cases hm : params.fPowAllowMinDifficultyBlocks = true
    · rw [if_pos hm]
      by_cases ht : (blockTime : Int)
          > lateThreshold nTime (epochOf 64006 params).nTargetSpacing
      · rw [if_pos ht]
        exact ⟨_, rfl⟩
      · rw [if_neg ht]
        exact ⟨_, rfl⟩
    · rw [if_neg hm]
      exact ⟨_, rfl⟩
  · intro hm
    unfold GetNextWorkRequired
    rw [lookBack_node_eq cd 64006 nTime nBits pprev blockTime params _ hE hI, if_pos hnb, hm]
    rfl

/-- A well-formed chain of tip height 64006 under the sample parameters. -/
theorem C18_height_64006_witness :
    sampleParams.fPowAllowMinDifficultyBlocks = false
      ∧ GetNextWorkRequired compactCodec (sampleChain 0x1d00ffff 1000 150 64006) 0 sampleParams
          = .ok 0x1d00ffff :=
  ⟨by decide,
    (C18_height_64006 compactCodec (1000 + (64005 + 1) * 150) 0x1d00ffff
      (sampleChain 0x1d00ffff 1000 150 64005) 0 sampleParams).2.2.2.2 (by decide)⟩

/-- C14: on a boundary block (the call has passed the assertion of line 77) with tip height
`h` in [62400, 64000) or at least 64595, `pindexFirst` is the `F * interval`-th predecessor
of the tip: 576 blocks back for `h` in [62400, 64000) and in [64595, 68999), 48 blocks back
from 68999 on.  The unclamped actual timespan is the difference of the two block times
divided by `F`, truncating toward zero, when `h` is at least 64595, and the undivided
difference for every `h` below 64595. -/
theorem C14_long_window (cd : Codec) (nHeight nTime nBits : Nat) (pprev : BlockPtr)
    (blockTime : Nat) (params : Params) (st : Boundary)
    (hst : lookBack cd (.node nHeight nTime nBits pprev) blockTime params = .ok (.boundary st)) :
    (((62400 ≤ nHeight ∧ nHeight < 64000) ∨ (64595 ≤ nHeight ∧ nHeight < 68999)) →
        blocksToGoBack nHeight (epochOf nHeight params)
            = (epochOf nHeight params).nReTargetHistoryFact * (epochOf nHeight params).nInterval
          ∧ blocksToGoBack nHeight (epochOf nHeight params) = 576
          ∧ ∃ fh fb fp, walkBack 576 (.node nHeight nTime nBits pprev)
              = .node fh st.firstTime fb fp)
      ∧ (68999 ≤ nHeight →
        blocksToGoBack nHeight (epochOf nHeight params)
            = (epochOf nHeight params).nReTargetHistoryFact * (epochOf nHeight params).nInterval
          ∧ blocksToGoBack nHeight (epochOf nHeight params) = 48
          ∧ ∃ fh fb fp, walkBack 48 (.node nHeight nTime nBits pprev)
              = .node fh st.firstTime fb fp)
      ∧ (64595 ≤ nHeight →
        rawTimespan st.nHeight st.nTime st.firstTime st.ep
          = .ok (Int.tdiv ((nTime : Int) - (st.firstTime : Int))
              (epochOf nHeight params).nReTargetHistoryFact))
      ∧ (nHeight < 64595 →
        rawTimespan st.nHeight st.nTime st.firstTime st.ep
          = .ok ((nTime : Int) - (st.firstTime : Int))) := by
  obtain ⟨_, _, _, hh, htm, _, hep, fh, fb, fp, hw⟩ :=
    lookBack_boundary_inv cd nHeight nTime nBits pprev blockTime params st hst
  have hF := epoch_fact_pos nHeight params
  have hraw := rawTimespan_ok st.nHeight st.nTime st.firstTime st.ep (by rw [hep]; exact hF)
  rw [hh, htm, hep] at hraw
  refine ⟨?_, ?_, ?_, ?_⟩
  · intro hl
    have hb : blocksToGoBack nHeight (epochOf nHeight params)
        = (epochOf nHeight params).nReTargetHistoryFact * (epochOf nHeight params).nInterval := by
      unfold blocksToGoBack
      rw [if_pos (by omega)]
    have h576 : blocksToGoBack nHeight (epochOf nHeight params) = 576 := by
      rw [hb]
      rcases hl with hl | hl
      · rw [epochOf_middle nHeight params (by omega) (by omega)]
        decide
      · rw [epochOf_late nHeight params (by omega), if_pos hl.2]
        decide
    refine ⟨hb, h576, fh, fb, fp, ?_⟩
    rw [h576] at hw
    exact hw
  · intro hl
    have hb : blocksToGoBack nHeight (epochOf nHeight params)
        = (epochOf nHeight params).nReTargetHistoryFact * (epochOf nHeight params).nInterval := by
      unfold blocksToGoBack
      rw [if_pos (by omega)]
    have h48 : blocksToGoBack nHeight (epochOf nHeight params) = 48 := by
      rw [hb, epochOf_late nHeight params (by omega), if_neg (by omega)]
      decide
    refine ⟨hb, h48, fh, fb, fp, ?_⟩
    rw [h48] at hw
    exact hw
  · intro hl
    rw [hh, htm, hep, hraw]
    unfold rawTimespanValue
    rw [if_pos hl]
  · intro hl
    rw [hh, htm, hep, hraw]
    unfold rawTimespanValue
    rw [if_neg (by omega)]

/-- C15, as stated, fails: the upper bound `T * 4` is an `int64_t` product.  At tip height
15 with the bracket timespan `T = 2 ^ 62 + 4` (positive, an `int64_t`) the product wraps to
16; a raw timespan of 2250 is first raised to `T / 4 = 2 ^ 60 + 1` and then lowered to 16,
which is neither `max (T / 4) (min a (T * 4))` nor within `[T / 4, T * 4]`.  The inputs are
those of a boundary retarget: the well-formed chain of tip height 15 under parameters with
that timespan and the spacing `2 ^ 58` (interval 16). -/
theorem C15_product_wraps :
    (15 < 25199 ∧ (0 : Int) < 2 ^ 62 + 4 ∧ IsInt64 (2 ^ 62 + 4))
      ∧ clampTimespan 15 (2 ^ 62 + 4) 2250 = 16
      ∧ max (Int.tdiv (2 ^ 62 + 4) 4) (min 2250 ((2 ^ 62 + 4) * 4)) = 2 ^ 60 + 1
      ∧ clampTimespan 15 (2 ^ 62 + 4) 2250
          ≠ max (Int.tdiv (2 ^ 62 + 4) 4) (min 2250 ((2 ^ 62 + 4) * 4))
      ∧ ¬ (Int.tdiv (2 ^ 62 + 4) 4 ≤ clampTimespan 15 (2 ^ 62 + 4) 2250)
      ∧ lookBack compactCodec (sampleChain 0x1d00ffff 1000 150 15) 0 hugeTimespanParams
          = .ok (.boundary (sampleBoundary 0x1d00ffff 150 15 15 hugeTimespanParams))
      ∧ (sampleBoundary 0x1d00ffff 150 15 15 hugeTimespanParams).ep.nTargetTimespan
          = 2 ^ 62 + 4
      ∧ rawTimespan 15 (sampleBoundary 0x1d00ffff 150 15 15 hugeTimespanParams).nTime
          (sampleBoundary 0x1d00ffff 150 15 15 hugeTimespanParams).firstTime
          (sampleBoundary 0x1d00ffff 150 15 15 hugeTimespanParams).ep = .ok 2250 := by
  decide

/-- C15, amended: for a bracket timespan `T > 0` whose product with 4 (tip heights below
25199 or in [60000, 64079)) or with 8 (tip heights in [25199, 60000)) is an `int64_t`, and
every raw timespan `a`, the clamped value is `max lo (min a hi)` with
`(lo, hi) = (T / 4, T * 4)` or `(T / 2, T * 8)`, the divisions being integer divisions; it
lies in `[lo, hi]` and is `a` when `a` lies there already. -/
theorem C15_clamp_brackets (nHeight : Nat) (T a : Int) (hT : 0 < T) :
    ((nHeight < 25199 ∨ (60000 ≤ nHeight ∧ nHeight < 64079)) → T * 4 < 2 ^ 63 →
        clampTimespan nHeight T a = max (Int.tdiv T 4) (min a (T * 4))
          ∧ Int.tdiv T 4 ≤ clampTimespan nHeight T a
          ∧ clampTimespan nHeight T a ≤ T * 4
          ∧ (Int.tdiv T 4 ≤ a → a ≤ T * 4 → clampTimespan nHeight T a = a))
      ∧ ((25199 ≤ nHeight ∧ nHeight < 60000) → T * 8 < 2 ^ 63 →
        clampTimespan nHeight T a = max (Int.tdiv T 2) (min a (T * 8))
          ∧ Int.tdiv T 2 ≤ clampTimespan nHeight T a
          ∧ clampTimespan nHeight T a ≤ T * 8
          ∧ (Int.tdiv T 2 ≤ a → a ≤ T * 8 → clampTimespan nHeight T a = a)) := by
  constructor
  · intro hq hT4
    have hq' : nHeight < 25199 ∨ (nHeight ≥ 60000 ∧ nHeight < 64079) := by omega
    obtain ⟨c1, c2⟩ := clampTimespan_quarter nHeight T a hq' hT.le hT4
    have e : Int.tdiv T 4 = T / 4 := Int.tdiv_eq_ediv hT.le (by decide)
    have ew := wrap64_eq (T * 4) (by omega) hT4
    refine ⟨?_, c1, c2, ?_⟩
    · unfold clampTimespan
      rw [if_pos hq', e, ew]
      dsimp only
      split <;> split <;> omega
    · intro h1 h2
      unfold clampTimespan
      rw [if_pos hq', ew]
      rw [e] at h1 ⊢
      dsimp only
      split <;> split <;> omega
  · intro hq hT8
    obtain ⟨c1, c2⟩ := clampTimespan_half nHeight T a hq.1 hq.2 hT.le hT8
    have e : Int.tdiv T 2 = T / 2 := Int.tdiv_eq_ediv hT.le (by decide)
    have ew := wrap64_eq (T * 8) (by omega) hT8
    refine ⟨?_, c1, c2, ?_⟩
    · unfold clampTimespan
      rw [if_neg (by omega), if_neg (by omega), e, ew]
      dsimp only
      split <;> split <;> omega
    · intro h1 h2
      unfold clampTimespan
      rw [if_neg (by omega), if_neg (by omega), ew]
      rw [e] at h1 ⊢
      dsimp only
      split <;> split <;> omega

/-- Tip height 60047 with the bracket timespan 7200: a raw timespan of 480 is raised to
1800. -/
theorem C15_clamp_brackets_witness :
    (0 : Int) < 7200
      ∧ (7200 : Int) * 4 < 2 ^ 63
      ∧ clampTimespan 60047 7200 480 = max (Int.tdiv 7200 4) (min 480 (7200 * 4))
      ∧ clampTimespan 60047 7200 480 = 1800 :=
  ⟨by decide, by decide,
    ((C15_clamp_brackets 60047 7200 480 (by decide)).1 (Or.inr ⟨by decide, by decide⟩)
      (by decide)).1,
    by decide⟩

/-- C16: at tip heights from 64079 on the bracket timespan is 1800 and the clamped actual
timespan lies in [1636, 1980]: a raw value of at most 1636 becomes 1636, which is 1800/1.1
truncated, a raw value of at least 1981 becomes 1980, which is 1800 times 1.1, and a raw
value in [1637, 1980] is left as it is. -/
theorem C16_tight_clamp (nHeight : Nat) (params : Params) (a : Int) (hh : 64079 ≤ nHeight) :
    (epochOf nHeight params).nTargetTimespan = 1800
      ∧ 1636 ≤ clampTimespan nHeight (epochOf nHeight params).nTargetTimespan a
      ∧ clampTimespan nHeight (epochOf nHeight params).nTargetTimespan a ≤ 1980
      ∧ (a ≤ 1636 → clampTimespan nHeight (epochOf nHeight params).nTargetTimespan a = 1636)
      ∧ (1981 ≤ a → clampTimespan nHeight (epochOf nHeight params).nTargetTimespan a = 1980)
      ∧ (1637 ≤ a → a ≤ 1980 →
          clampTimespan nHeight (epochOf nHeight params).nTargetTimespan a = a)
      ∧ (11 * 1636 ≤ 10 * (epochOf nHeight params).nTargetTimespan
          ∧ 10 * (epochOf nHeight params).nTargetTimespan < 11 * 1637)
      ∧ 10 * 1980 = 11 * (epochOf nHeight params).nTargetTimespan := by
  have eT : (epochOf nHeight params).nTargetTimespan = 1800 := by
    rw [epochOf_late nHeight params (by omega)]
  rw [eT]
  obtain ⟨c1, c2⟩ := clampTimespan_tight nHeight a hh
  have e1 : Int.tdiv (10 * 1800) 11 = 1636 := by decide
  have e2 : Int.tdiv (11 * 1800) 10 = 1980 := by decide
  refine ⟨rfl, c1, c2, ?_, ?_, ?_, by decide, by decide⟩
  · intro h
    unfold clampTimespan
    rw [if_neg (by omega), if_pos hh, e1, e2]
    dsimp only
    split <;> split <;> omega
  · intro h
    unfold clampTimespan
    rw [if_neg (by omega), if_pos hh, e1, e2]
    dsimp only
    split <;> split <;> omega
  · intro h1 h2
    unfold clampTimespan
    rw [if_neg (by omega), if_pos hh, e1, e2]
    dsimp only
    split <;> split <;> omega

/-- Tip height 64079 under the sample parameters: a raw timespan of 1200 becomes 1636. -/
theorem C16_tight_clamp_witness :
    64079 ≤ 64079
      ∧ (epochOf 64079 sampleParams).nTargetTimespan = 1800
      ∧ clampTimespan 64079 (epochOf 64079 sampleParams).nTargetTimespan 1200 = 1636 :=
  ⟨by decide, (C16_tight_clamp 64079 sampleParams 1200 (by decide)).1,
    (C16_tight_clamp 64079 sampleParams 1200 (by decide)).2.2.2.1 (by decide)⟩

/-- A well-formed chain of tip height 64595 with one block every 150 seconds: the walk goes
576 blocks back and the unclamped timespan is 86400 / 48 = 1800. -/
theorem C14_long_window_witness :
    lookBack compactCodec (sampleChain 0x1d00ffff 1000 150 64595) 0 sampleParams
        = .ok (.boundary (sampleBoundary 0x1d00ffff 150 64595 576 sampleParams))
      ∧ 64595 ≤ 64595
      ∧ rawTimespan 64595 (1000 + 64595 * 150) (1000 + (64595 - 576) * 150)
          (epochOf 64595 sampleParams) = .ok 1800 :=
  ⟨by decide, by decide,
    ((C14_long_window compactCodec 64595 (1000 + (64594 + 1) * 150) 0x1d00ffff
      (sampleChain 0x1d00ffff 1000 150 64594) 0 sampleParams
      (sampleBoundary 0x1d00ffff 150 64595 576 sampleParams) (by decide)).2.2.1
      (by decide)).trans (by decide)⟩

theorem bitsLoop_le (k n : Nat) : bitsLoop k n ≤ k := by
  induction k with
  | zero => simp [bitsLoop]
  | succ j ih =>
    simp only [bitsLoop]
    split
    · exact Nat.le_refl _
    · exact Nat.le_succ_of_le ih

theorem bitsLoop_le_iff (k : Nat) :
    ∀ (m n : Nat), n < 2 ^ k → m ≤ k → (bitsLoop k n ≤ m ↔ n < 2 ^ m) := by
  induction k with
  | zero =>
    intro m n hn hm
    have hm0 : m = 0 := by omega
    subst hm0
    simp only [bitsLoop]
    constructor
    · intro _
      exact hn
    · intro _
      exact Nat.le_refl _
  | succ j ih =>
    intro m n hn hm
    simp only [bitsLoop]
    by_cases hj : 2 ^ j ≤ n
    · rw [if_pos hj]
      constructor
      · intro h
        have hmj : m = j + 1 := by omega
        rw [hmj]
        exact hn
      · intro h
        by_cases hmj : m = j + 1
        · omega
        · have hle : m ≤ j := by omega
          have hpow : 2 ^ m ≤ 2 ^ j := Nat.pow_le_pow_right (by decide) hle
          omega
    · rw [if_neg hj]
      by_cases hmj : m = j + 1
      · rw [hmj]
        constructor
        · intro _
          exact hn
        · intro _
          exact Nat.le_succ_of_le (bitsLoop_le j n)
      · exact ih m n (by omega) (by omega)

theorem bits_le_iff (n m : Nat) (hn : n < 2 ^ 256) (hm : m ≤ 256) :
    bits n ≤ m ↔ n < 2 ^ m :=
  bitsLoop_le_iff 256 m n hn hm

theorem clampTimespan_range (h : Nat) (params : Params) (raw : Int) (hh : 25199 ≤ h) :
    450 ≤ clampTimespan h (epochOf h params).nTargetTimespan raw
      ∧ clampTimespan h (epochOf h params).nTargetTimespan raw ≤ 57600 := by
  by_cases h1 : h < 60000
  · rw [epochOf_middle h params hh (by omega)]
    obtain ⟨c1, c2⟩ := clampTimespan_half h 7200 raw hh h1 (by decide) (by decide)
    have e : Int.tdiv 7200 2 = 3600 := by decide
    rw [e] at c1
    dsimp only
    omega
  · by_cases h2 : h < 64007
    · rw [epochOf_middle h params hh h2]
      obtain ⟨c1, c2⟩ := clampTimespan_quarter h 7200 raw (Or.inr ⟨by omega, by omega⟩)
        (by decide) (by decide)
      have e : Int.tdiv 7200 4 = 1800 := by decide
      rw [e] at c1
      dsimp only
      omega
    · rw [epochOf_late h params (by omega)]
      dsimp only
      by_cases h3 : h < 64079
      · obtain ⟨c1, c2⟩ := clampTimespan_quarter h 1800 raw (Or.inr ⟨by omega, h3⟩)
          (by decide) (by decide)
        have e : Int.tdiv 1800 4 = 450 := by decide
        rw [e] at c1
        omega
      · obtain ⟨c1, c2⟩ := clampTimespan_tight h raw (by omega)
        omega

theorem adjustTargetValue_exact (p a T : Nat) (hp : p < 2 ^ 240) (ha : a ≤ 57600)
    (hT : 0 < T) (hT64 : T < 2 ^ 64) :
    (bits p ≤ 235 → p * a < 2 ^ 256
        ∧ adjustTargetValue p (a : Int) (T : Int) = p * a / T)
      ∧ (bits p > 235 → p / 2 * a < 2 ^ 256 ∧ p / 2 * a / T * 2 < 2 ^ 256
        ∧ adjustTargetValue p (a : Int) (T : Int) = 2 * (p / 2 * a / T)) := by
  have ea : ((a : Int) % 2 ^ 32).toNat = a := by omega
  have eT : ((T : Int) % 2 ^ 64).toNat = T := by omega
  have hp256 : p < 2 ^ 256 := by omega
  constructor
  · intro hb
    have hlt : p < 2 ^ 235 := (bits_le_iff p 235 hp256 (by decide)).mp hb
    have h1 : p * a ≤ p * 57600 := Nat.mul_le_mul_left p ha
    have h2 : p * a < 2 ^ 256 := by omega
    refine ⟨h2, ?_⟩
    unfold adjustTargetValue
    rw [if_neg (by omega), ea, eT, Nat.mod_eq_of_lt h2]
  · intro hb
    have h1 : p / 2 * a ≤ p / 2 * 57600 := Nat.mul_le_mul_left _ ha
    have h2 : p / 2 * a < 2 ^ 255 := by omega
    have h3 : p / 2 * a / T ≤ p / 2 * a := Nat.div_le_self _ _
    have h4 : p / 2 * a / T * 2 < 2 ^ 256 := by omega
    refine ⟨by omega, h4, ?_⟩
    unfold adjustTargetValue
    rw [if_pos hb, ea, eT, Nat.mod_eq_of_lt (by omega : p / 2 * a < 2 ^ 256),
      Nat.mod_eq_of_lt h4, Nat.mul_comm]

/-- C17: on a boundary retarget at tip height at least 25199 with a decoded tip target `p`
below `2 ^ 240`, the clamped timespan `a` satisfies `0 < a ≤ 57600`, the bracket timespan
`T` is 7200 or 1800, no product or shift exceeds 256 bits, and the adjusted magnitude before
the `powLimit` clamp is `p * a / T` when the bit-length of `p` is at most 235 and
`2 * (p / 2 * a / T)` when it is more, all divisions being floors. -/
theorem C17_exact_arithmetic (cd : Codec) (nHeight nTime nBits : Nat) (pprev : BlockPtr)
    (blockTime : Nat) (params : Params) (st : Boundary)
    (hst : lookBack cd (.node nHeight nTime nBits pprev) blockTime params = .ok (.boundary st))
    (hh : 25199 ≤ nHeight)
    (hp : (cd.SetCompact nBits).magnitude < 2 ^ 240) :
    ∃ (raw : Int) (a T : Nat),
      rawTimespan st.nHeight st.nTime st.firstTime st.ep = .ok raw
        ∧ clampTimespan st.nHeight st.ep.nTargetTimespan raw = (a : Int)
        ∧ st.ep.nTargetTimespan = (T : Int)
        ∧ 0 < a ∧ a ≤ 57600 ∧ (T = 7200 ∨ T = 1800)
        ∧ (bits (cd.SetCompact nBits).magnitude ≤ 235 ↔ (cd.SetCompact nBits).magnitude < 2 ^ 235)
        ∧ (bits (cd.SetCompact nBits).magnitude ≤ 235 →
            (cd.SetCompact nBits).magnitude * a < 2 ^ 256
            ∧ adjustedTarget cd st = .ok ((cd.SetCompact nBits).magnitude * a / T))
        ∧ (bits (cd.SetCompact nBits).magnitude > 235 →
            (cd.SetCompact nBits).magnitude / 2 * a < 2 ^ 256
            ∧ (cd.SetCompact nBits).magnitude / 2 * a / T * 2 < 2 ^ 256
            ∧ adjustedTarget cd st
                = .ok (2 * ((cd.SetCompact nBits).magnitude / 2 * a / T))) := by
  obtain ⟨_, _, _, hhe, htm, hnb, hep, _⟩ :=
    lookBack_boundary_inv cd nHeight nTime nBits pprev blockTime params st hst
  have hF := epoch_fact_pos nHeight params
  rw [← hep] at hF
  have hraw := rawTimespan_ok st.nHeight st.nTime st.firstTime st.ep hF
  obtain ⟨c1, c2⟩ := clampTimespan_range nHeight params
    (rawTimespanValue st.nHeight st.nTime st.firstTime st.ep) hh
  rw [← hep, ← hhe] at c1 c2
  have hTcases := epochOf_timespan_high nHeight params hh
  rw [← hep] at hTcases
  obtain ⟨c, hc⟩ : ∃ c : Nat, clampTimespan st.nHeight st.ep.nTargetTimespan
      (rawTimespanValue st.nHeight st.nTime st.firstTime st.ep) = (c : Int) :=
    ⟨(clampTimespan st.nHeight st.ep.nTargetTimespan
      (rawTimespanValue st.nHeight st.nTime st.firstTime st.ep)).toNat, by omega⟩
  obtain ⟨TT, hTT⟩ : ∃ TT : Nat, st.ep.nTargetTimespan = (TT : Int) :=
    ⟨st.ep.nTargetTimespan.toNat, by omega⟩
  have hT' : TT = 7200 ∨ TT = 1800 := by omega
  have hTpos : 0 < TT := by omega
  have hT64 : TT < 2 ^ 64 := by omega
  have hc' : c ≤ 57600 := by omega
  obtain ⟨x1, x2⟩ := adjustTargetValue_exact (cd.SetCompact nBits).magnitude c TT hp hc'
    hTpos hT64
  have hd : (((TT : Nat) : Int) % 2 ^ 64).toNat ≠ 0 := by omega
  have hadj : adjustedTarget cd st
      = .ok (adjustTargetValue (cd.SetCompact nBits).magnitude (c : Int) (TT : Int)) := by
    simp only [adjustedTarget, hraw, hnb, hc]
    rw [hTT] at hc ⊢
    exact adjustTarget_ok _ _ _ hd
  refine ⟨_, c, TT, hraw, hc, hTT, by omega, hc', hT', ?_, ?_, ?_⟩
  · exact bits_le_iff _ 235 (cd.magnitude_lt nBits) (by decide)
  · intro hb
    obtain ⟨y1, y2⟩ := x1 hb
    exact ⟨y1, by rw [hadj, y2]⟩
  · intro hb
    obtain ⟨y1, y2, y3⟩ := x2 hb
    exact ⟨y1, y2, by rw [hadj, y3]⟩

/-- A well-formed chain of tip height 25247 with blocks 100 seconds apart and the target of
`0x1d00ffff`, whose bit-length is 224. -/
theorem C17_exact_arithmetic_witness :
    lookBack compactCodec (sampleChain 0x1d00ffff 1000 100 25247) 0 sampleParams
        = .ok (.boundary (sampleBoundary 0x1d00ffff 100 25247 48 sampleParams))
      ∧ 25199 ≤ 25247
      ∧ (compactCodec.SetCompact 0x1d00ffff).magnitude < 2 ^ 240
      ∧ ∃ a T : Nat, 0 < a ∧ a ≤ 57600 ∧ (T = 7200 ∨ T = 1800)
          ∧ adjustedTarget compactCodec (sampleBoundary 0x1d00ffff 100 25247 48 sampleParams)
              = .ok ((compactCodec.SetCompact 0x1d00ffff).magnitude * a / T) := by
  refine ⟨by decide, by decide, by decide, ?_⟩
  obtain ⟨_, a, T, _, _, _, h1, h2, h3, _, h4, _⟩ :=
    C17_exact_arithmetic compactCodec 25247 (1000 + (25246 + 1) * 100) 0x1d00ffff
      (sampleChain 0x1d00ffff 1000 100 25246) 0 sampleParams
      (sampleBoundary 0x1d00ffff 100 25247 48 sampleParams) (by decide) (by decide) (by decide)
  exact ⟨a, T, h1, h2, h3, (h4 (by decide)).2⟩

theorem wellFormed_chainLength (prev : BlockPtr) :
    ∀ (h t b : Nat), WellFormed (.node h t b prev) → chainLength prev = h := by
  induction prev with
  | null =>
    intro h t b hwf
    simp only [WellFormed] at hwf
    simp only [chainLength, hwf]
  | node h1 t1 b1 p1 ih =>
    intro h t b hwf
    simp only [WellFormed] at hwf
    simp only [chainLength]
    rw [ih h1 t1 b1 hwf.2, hwf.1]

theorem sampleChain_wellFormed (nBits time0 spacing : Nat) :
    ∀ n, WellFormed (sampleChain nBits time0 spacing n) := by
  intro n
  induction n with
  | zero => simp only [sampleChain, WellFormed]
  | succ k ih =>
    cases k with
    | zero => simp only [sampleChain, WellFormed, and_self]
    | succ j =>
      simp only [sampleChain, WellFormed] at ih ⊢
      exact ⟨trivial, ih⟩

theorem blocksToGoBack_le_height (h : Nat) (params : Params)
    (hI : 1 ≤ (epochOf h params).nInterval)
    (hb : Int.tmod ((h : Int) + 1) (epochOf h params).nInterval = 0) :
    blocksToGoBack h (epochOf h params) ≤ (h : Int) := by
  unfold blocksToGoBack
  by_cases hl : (h ≥ 62400 ∧ h < 64000) ∨ h ≥ 64595
  · rw [if_pos hl]
    by_cases h2 : h < 64007
    · rw [epochOf_middle h params (by omega) h2]
      dsimp only
      omega
    · rw [epochOf_late h params (by omega)]
      dsimp only
      split <;> omega
  · rw [if_neg hl]
    obtain ⟨c, hc⟩ := Int.dvd_of_tmod_eq_zero hb
    by_cases hne : (h : Int) + 1 ≠ (epochOf h params).nInterval
    · rw [if_pos hne]
      have hc2 : 2 ≤ c := by
        by_contra hlt
        have hc1 : c ≤ 1 := by omega
        by_cases h1 : c = 1
        · rw [h1, Int.mul_one] at hc
          exact hne hc
        · have : (epochOf h params).nInterval * c ≤ 0 :=
            Int.mul_nonpos_of_nonneg_of_nonpos (by omega) (by omega)
          omega
      have : (epochOf h params).nInterval * 2 ≤ (epochOf h params).nInterval * c :=
        Int.mul_le_mul_of_nonneg_left hc2 (by omega)
      omega
    · rw [if_neg hne]
      omega

/-- C19: on a well-formed chain (a tip of height `h` has exactly `h` predecessors), for
parameters with an `int64_t` target timespan whose interval for the tip's bracket is defined
and at least 1, the look-back distance chosen on a boundary block is at most `h`, so the
assertion of line 77 is passed and the call returns a value. -/
theorem C19_walk_succeeds (cd : Codec) (nHeight nTime nBits : Nat) (pprev : BlockPtr)
    (blockTime : Nat) (params : Params) (ep : Epoch)
    (hwf : WellFormed (.node nHeight nTime nBits pprev))
    (hE : bracketEpoch nHeight params = .ok ep)
    (hT : IsInt64 params.nPowTargetTimespan)
    (hI : 1 ≤ ep.nInterval)
    (hb : Int.tmod ((nHeight : Int) + 1) ep.nInterval = 0) :
    chainLength pprev = nHeight
      ∧ blocksToGoBack nHeight ep ≤ (nHeight : Int)
      ∧ (∃ st, lookBack cd (.node nHeight nTime nBits pprev) blockTime params
          = .ok (.boundary st))
      ∧ (∃ v, GetNextWorkRequired cd (.node nHeight nTime nBits pprev) blockTime params
          = .ok v) := by
  have hep := bracketEpoch_eq_ok nHeight params ep hE
  subst hep
  have hlen := wellFormed_chainLength pprev nHeight nTime nBits hwf
  have hback := blocksToGoBack_le_height nHeight params hI hb
  have hI0 : (epochOf nHeight params).nInterval ≠ 0 := by omega
  have hnn : walkBack (blocksToGoBack nHeight (epochOf nHeight params)).toNat
      (.node nHeight nTime nBits pprev) ≠ .null := by
    intro hnull
    rw [walkBack_eq_null_iff] at hnull
    simp only [chainLength] at hnull
    omega
  refine ⟨hlen, hback, ?_, ?_⟩
  · rw [lookBack_node_eq cd nHeight nTime nBits pprev blockTime params _ hE hI0,
      if_neg (not_not.mpr hb)]
    cases hw : walkBack (blocksToGoBack nHeight (epochOf nHeight params)).toNat
        (.node nHeight nTime nBits pprev) with
    | null => exact absurd hw hnn
    | node fh ft fb fp => exact ⟨_, rfl⟩
  · unfold GetNextWorkRequired
    rw [lookBack_node_eq cd nHeight nTime nBits pprev blockTime params _ hE hI0,
      if_neg (not_not.mpr hb)]
    cases hw : walkBack (blocksToGoBack nHeight (epochOf nHeight params)).toNat
        (.node nHeight nTime nBits pprev) with
    | null => exact absurd hw hnn
    | node fh ft fb fp => exact retarget_ok cd params _ rfl (fun _ => hT) hI0

/-- The well-formed chain of tip height 25247, under the sample parameters and under
parameters whose target spacing is zero. -/
theorem C19_walk_succeeds_witness :
    WellFormed (sampleChain 0x1d00ffff 1000 150 25247)
      ∧ bracketEpoch 25247 sampleParams = .ok (epochOf 25247 sampleParams)
      ∧ IsInt64 sampleParams.nPowTargetTimespan
      ∧ 1 ≤ (epochOf 25247 sampleParams).nInterval
      ∧ Int.tmod ((25247 : Int) + 1) (epochOf 25247 sampleParams).nInterval = 0
      ∧ (∃ v, GetNextWorkRequired compactCodec (sampleChain 0x1d00ffff 1000 150 25247) 0
          sampleParams = .ok v)
      ∧ (∃ v, GetNextWorkRequired compactCodec (sampleChain 0x1d00ffff 1000 150 25247) 0
          zeroSpacingParams = .ok v) :=
  ⟨sampleChain_wellFormed _ _ _ _, by decide, by decide, by decide, by decide,
    (C19_walk_succeeds compactCodec 25247 (1000 + (25246 + 1) * 150) 0x1d00ffff
      (sampleChain 0x1d00ffff 1000 150 25246) 0 sampleParams (epochOf 25247 sampleParams)
      (sampleChain_wellFormed 0x1d00ffff 1000 150 25247) (by decide) (by decide) (by decide)
      (by decide)).2.2.2,
    (C19_walk_succeeds compactCodec 25247 (1000 + (25246 + 1) * 150) 0x1d00ffff
      (sampleChain 0x1d00ffff 1000 150 25246) 0 zeroSpacingParams
      (epochOf 25247 zeroSpacingParams)
      (sampleChain_wellFormed 0x1d00ffff 1000 150 25247) (by decide) (by decide) (by decide)
      (by decide)).2.2.2⟩

theorem walkBack_null (n : Nat) : walkBack n .null = .null := by
  cases n <;> rfl

theorem evenlySpaced_walk (spacing : Nat) (n : Nat) :
    ∀ (h t b : Nat) (prev : BlockPtr) (fh ft fb : Nat) (fp : BlockPtr),
      evenlySpaced spacing n (.node h t b prev) →
      walkBack n (.node h t b prev) = .node fh ft fb fp → t = ft + n * spacing := by
  induction n with
  | zero =>
    intro h t b prev fh ft fb fp _ hw
    simp only [walkBack, BlockPtr.node.injEq] at hw
    omega
  | succ k ih =>
    intro h t b prev fh ft fb fp hs hw
    cases prev with
    | null =>
      simp only [walkBack, walkBack_null] at hw
      cases hw
    | node h1 t1 b1 p1 =>
      simp only [evenlySpaced] at hs
      simp only [walkBack] at hw
      have := ih h1 t1 b1 p1 fh ft fb fp hs.2 hw
      rw [hs.1, this]
      ring

theorem steady_timespan (h : Nat) (params : Params) (tm ft : Nat) (hh : 25199 ≤ h)
    (hout : ¬ (62400 ≤ h ∧ h < 64000))
    (ht : tm = ft + (blocksToGoBack h (epochOf h params)).toNat * 150) :
    clampTimespan h (epochOf h params).nTargetTimespan
        (rawTimespanValue h tm ft (epochOf h params))
      = (epochOf h params).nTargetTimespan := by
  have e4 : Int.tdiv 7200 4 = 1800 := by decide
  have e2 : Int.tdiv 7200 2 = 3600 := by decide
  have e5 : Int.tdiv 1800 4 = 450 := by decide
  have e1 : Int.tdiv (10 * 1800) 11 = 1636 := by decide
  have e3 : Int.tdiv (11 * 1800) 10 = 1980 := by decide
  by_cases h1 : h < 64007
  · have hb : blocksToGoBack h (epochOf h params) = 48 := by
      rw [epochOf_middle h params hh h1]
      unfold blocksToGoBack
      rw [if_neg (by omega)]
      dsimp only
      rw [if_pos (by omega)]
    rw [hb] at ht
    have hraw : rawTimespanValue h tm ft (epochOf h params) = 7200 := by
      unfold rawTimespanValue
      rw [if_neg (by omega)]
      omega
    rw [hraw, epochOf_middle h params hh h1]
    unfold clampTimespan
    dsimp only
    rw [e4, e2]
    split
    · rfl
    · split
      · omega
      · rfl
  · by_cases h2 : h < 64595
    · have hb : blocksToGoBack h (epochOf h params) = 12 := by
        rw [epochOf_late h params (by omega)]
        unfold blocksToGoBack
        rw [if_neg (by omega)]
        dsimp only
        rw [if_pos (by omega)]
      rw [hb] at ht
      have hraw : rawTimespanValue h tm ft (epochOf h params) = 1800 := by
        unfold rawTimespanValue
        rw [if_neg (by omega)]
        omega
      rw [hraw, epochOf_late h params (by omega)]
      unfold clampTimespan
      dsimp only
      rw [e5, e1, e3]
      split
      · rfl
      · split
        · rfl
        · omega
    · have hF : (epochOf h params).nReTargetHistoryFact * 12 * 150
          = 1800 * (epochOf h params).nReTargetHistoryFact
          ∧ blocksToGoBack h (epochOf h params)
            = (epochOf h params).nReTargetHistoryFact * 12
          ∧ ((epochOf h params).nReTargetHistoryFact = 48
            ∨ (epochOf h params).nReTargetHistoryFact = 4) := by
        refine ⟨by ring, ?_, ?_⟩
        · unfold blocksToGoBack
          rw [if_pos (by omega), epochOf_late h params (by omega)]
        · rw [epochOf_late h params (by omega)]
          dsimp only
          split
          · left
            rfl
          · right
            rfl
      obtain ⟨_, hb, hF48⟩ := hF
      rw [hb] at ht
      have hraw : rawTimespanValue h tm ft (epochOf h params) = 1800 := by
        unfold rawTimespanValue
        rw [if_pos (by omega)]
        rcases hF48 with hf | hf
        · rw [hf] at ht ⊢
          have e : (tm : Int) - (ft : Int) = 86400 := by omega
          rw [e]
          decide
        · rw [hf] at ht ⊢
          have e : (tm : Int) - (ft : Int) = 7200 := by omega
          rw [e]
          decide
      rw [hraw, epochOf_late h params (by omega)]
      unfold clampTimespan
      dsimp only
      rw [e1, e3, if_neg (by omega), if_pos (by omega)]
      rfl

theorem sampleChain_evenlySpaced (nBits time0 spacing : Nat) :
    ∀ n k, evenlySpaced spacing k (sampleChain nBits time0 spacing n) := by
  intro n
  induction n with
  | zero =>
    intro k
    cases k <;> simp only [sampleChain, evenlySpaced]
  | succ m ih =>
    intro k
    cases k with
    | zero => simp only [evenlySpaced]
    | succ j =>
      cases m with
      | zero =>
        have h0 := ih j
        simp only [sampleChain] at h0
        simp only [sampleChain, evenlySpaced]
        exact ⟨by ring, h0⟩
      | succ i =>
        have h0 := ih j
        simp only [sampleChain] at h0
        simp only [sampleChain, evenlySpaced]
        exact ⟨by ring, h0⟩

/-- C20: on a boundary retarget at tip height `h` at least 25199 and outside
[62400, 64000), on a chain whose blocks in the look-back window each come exactly 150
seconds after their predecessor, the actual timespan after the division by `F` and the clamp
is the bracket timespan; so, with `fPowNoRetargeting` off, the decoded tip target `p` at
most `powLimit` and of bit-length at most 235, the adjusted magnitude is `p`, the `powLimit`
clamp leaves it, and the call returns the compact encoding of `p`. -/
theorem C20_steady_state (cd : Codec) (nHeight nTime nBits : Nat) (pprev : BlockPtr)
    (blockTime : Nat) (params : Params) (st : Boundary)
    (hst : lookBack cd (.node nHeight nTime nBits pprev) blockTime params = .ok (.boundary st))
    (hh : 25199 ≤ nHeight)
    (hout : ¬ (62400 ≤ nHeight ∧ nHeight < 64000))
    (hsp : evenlySpaced 150 (blocksToGoBack nHeight (epochOf nHeight params)).toNat
      (.node nHeight nTime nBits pprev))
    (hno : params.fPowNoRetargeting = false)
    (hp : (cd.SetCompact nBits).magnitude ≤ params.powLimit)
    (hbits : bits (cd.SetCompact nBits).magnitude ≤ 235) :
    ∃ raw : Int, rawTimespan st.nHeight st.nTime st.firstTime st.ep = .ok raw
      ∧ clampTimespan st.nHeight st.ep.nTargetTimespan raw = st.ep.nTargetTimespan
      ∧ adjustedTarget cd st = .ok (cd.SetCompact nBits).magnitude
      ∧ limitTarget (cd.SetCompact nBits).magnitude params.powLimit
          = (cd.SetCompact nBits).magnitude
      ∧ GetNextWorkRequired cd (.node nHeight nTime nBits pprev) blockTime params
          = .ok (cd.GetCompact (cd.SetCompact nBits).magnitude) := by
  obtain ⟨_, _, _, hhe, htm, hnb, hep, fh, fb, fp, hw⟩ :=
    lookBack_boundary_inv cd nHeight nTime nBits pprev blockTime params st hst
  have ht := evenlySpaced_walk 150 _ nHeight nTime nBits pprev fh st.firstTime fb fp hsp hw
  have hclamp := steady_timespan nHeight params nTime st.firstTime hh hout ht
  have hF := epoch_fact_pos nHeight params
  rw [← hep] at hF
  have hraw := rawTimespan_ok st.nHeight st.nTime st.firstTime st.ep hF
  rw [← hep, ← hhe, ← htm] at hclamp
  have hTcases := epochOf_timespan_high nHeight params hh
  rw [← hep] at hTcases
  obtain ⟨TT, hTT⟩ : ∃ TT : Nat, st.ep.nTargetTimespan = (TT : Int) :=
    ⟨st.ep.nTargetTimespan.toNat, by omega⟩
  have hlt : (cd.SetCompact nBits).magnitude < 2 ^ 235 :=
    (bits_le_iff _ 235 (cd.magnitude_lt nBits) (by decide)).mp hbits
  obtain ⟨x1, _⟩ := adjustTargetValue_exact (cd.SetCompact nBits).magnitude TT TT
    (by omega) (by omega) (by omega) (by omega)
  have hd : (((TT : Nat) : Int) % 2 ^ 64).toNat ≠ 0 := by omega
  have hadj : adjustedTarget cd st = .ok (cd.SetCompact nBits).magnitude := by
    simp only [adjustedTarget, hraw, hnb, hclamp]
    rw [hTT, adjustTarget_ok _ _ _ hd, (x1 hbits).2, Nat.mul_div_cancel _ (by omega)]
  have hlim : limitTarget (cd.SetCompact nBits).magnitude params.powLimit
      = (cd.SetCompact nBits).magnitude := by
    unfold limitTarget
    rw [if_neg (by omega)]
  refine ⟨_, hraw, hclamp, hadj, hlim, ?_⟩
  simp only [GetNextWorkRequired, hst, retarget, hno, hadj, hlim]
  rfl

/-- The well-formed chain of tip height 64595 with one block every 150 seconds: the required
target is the tip's own. -/
theorem C20_steady_state_witness :
    lookBack compactCodec (sampleChain 0x1d00ffff 1000 150 64595) 0 sampleParams
        = .ok (.boundary (sampleBoundary 0x1d00ffff 150 64595 576 sampleParams))
      ∧ 25199 ≤ 64595 ∧ ¬ (62400 ≤ 64595 ∧ 64595 < 64000)
      ∧ evenlySpaced 150 (blocksToGoBack 64595 (epochOf 64595 sampleParams)).toNat
          (sampleChain 0x1d00ffff 1000 150 64595)
      ∧ sampleParams.fPowNoRetargeting = false
      ∧ (compactCodec.SetCompact 0x1d00ffff).magnitude ≤ sampleParams.powLimit
      ∧ bits (compactCodec.SetCompact 0x1d00ffff).magnitude ≤ 235
      ∧ GetNextWorkRequired compactCodec (sampleChain 0x1d00ffff 1000 150 64595) 0 sampleParams
          = .ok (compactCodec.GetCompact (compactCodec.SetCompact 0x1d00ffff).magnitude) := by
  refine ⟨by decide, by decide, by decide, sampleChain_evenlySpaced _ _ _ _ _, by decide, by decide, by decide, ?_⟩
  obtain ⟨_, _, _, _, _, h5⟩ :=
    C20_steady_state compactCodec 64595 (1000 + (64594 + 1) * 150) 0x1d00ffff
      (sampleChain 0x1d00ffff 1000 150 64594) 0 sampleParams
      (sampleBoundary 0x1d00ffff 150 64595 576 sampleParams) (by decide) (by decide)
      (by decide) (sampleChain_evenlySpaced 0x1d00ffff 1000 150 64595 _) (by decide) (by decide) (by decide)
  exact h5

end GameCoin
